import Mathlib

/-!
Verification of the marshalling core of `tantivy_ex`
(`native/tantivy_ex/src/modules/{query,document,facet,aggregation}.rs`),
a translation layer between dynamically-typed caller input and the
schema-typed tantivy search engine.

The Rust source is shallowly embedded: each Lean definition mirrors one
Rust function (or one branch of its `FieldType` dispatch), with machine
integers modelled as `Nat`/`Int` carrying the `u64`/`i64` range checks of
the rustler decoders, Rust `Result`/decode failures modelled as
`Except`/`Option`, and the external tantivy engine (regex compilation,
searcher execution) passed in as explicit parameters.  Unicode case
folding is modelled on the ASCII range, which coincides with Rust
`str::to_lowercase` on all ASCII input.
-/

namespace TantivyEx

/-- ASCII lower-casing of one character (agrees with Rust
`char::to_lowercase` on ASCII input). -/
def charLower (c : Char) : Char :=
  if 'A' ≤ c ∧ c ≤ 'Z' then Char.ofNat (c.toNat + 32) else c

/-- Models Rust `str::to_lowercase` (restricted to ASCII case folding). -/
def lowercase (s : String) : String :=
  String.mk (s.data.map charLower)

/-- Helper for `splitWhitespace`: accumulates the current word (reversed)
while scanning the character list. -/
def splitWsAux : List Char → List Char → List String
  | [], acc => if acc.isEmpty then [] else [String.mk acc.reverse]
  | c :: cs, acc =>
      if c.isWhitespace then
        if acc.isEmpty then splitWsAux cs []
        else String.mk acc.reverse :: splitWsAux cs []
      else splitWsAux cs (c :: acc)

/-- Models Rust `str::split_whitespace`: the maximal non-whitespace runs
of the string, in order (empty runs never occur). -/
def splitWhitespace (s : String) : List String :=
  splitWsAux s.data []

/-- Models Rust `u64::from_str` (as invoked by `str::parse::<u64>`):
an optional leading plus sign, then one or more ASCII digits, value
below `2^64`. -/
def parseU64 (s : String) : Option Nat :=
  let ds := match s.data with
    | '+' :: rest => rest
    | l => l
  if ds.isEmpty ∨ ¬ ds.all Char.isDigit then none
  else
    let n := ds.foldl (fun a c => a * 10 + (c.toNat - 48)) 0
    if n < 2 ^ 64 then some n else none

/-- Models Rust `i64::from_str`: optional sign, digits, value within the
`i64` range. -/
def parseI64 (s : String) : Option Int :=
  let (neg, ds) :=
    match s.data with
    | '-' :: rest => (true, rest)
    | '+' :: rest => (false, rest)
    | l => (false, l)
  if ds.isEmpty ∨ ¬ ds.all Char.isDigit then none
  else
    let n : Int := ds.foldl (fun a c => a * 10 + ((c.toNat : Int) - 48)) 0
    let v := if neg then -n else n
    if -(2 ^ 63) ≤ v ∧ v < 2 ^ 63 then some v else none

/-! ## Schema model

`tantivy::schema`: a `Schema` is an ordered list of named fields; a
`Field` is its positional id (`Field::from_field_id`).  For `Text`
fields the options record whether indexing (tokenization) is configured
and, if so, which `IndexRecordOption` it uses. -/

/-- `tantivy::schema::IndexRecordOption`. -/
inductive IdxRecordOption where
  | basic
  | withFreqs
  | withFreqsAndPositions
  deriving DecidableEq, Repr

/-- `IndexRecordOption::has_positions`. -/
def IdxRecordOption.hasPositions : IdxRecordOption → Bool
  | .withFreqsAndPositions => true
  | _ => false

/-- The indexing part of `tantivy::schema::TextOptions`
(`TextFieldIndexing`); the tokenizer name is irrelevant to the claims
and omitted. -/
structure TextIndexing where
  recordOption : IdxRecordOption
  deriving DecidableEq, Repr

/-- `tantivy::schema::TextOptions`: `get_indexing_options` returns
`Some` exactly when the field is tokenized/indexed. -/
structure TextOpts where
  indexing : Option TextIndexing
  deriving DecidableEq, Repr

/-- `tantivy::schema::FieldType` (the variants' option payloads are kept
only where a claim depends on them). -/
inductive SFieldType where
  | str (opts : TextOpts)
  | u64
  | i64
  | f64
  | boolF
  | date
  | facet
  | bytes
  | jsonObject
  | ipAddr
  deriving DecidableEq, Repr

/-- A schema: ordered association list of field name to field type.
`Field` handles are positional ids into this list. -/
def SchemaM := List (String × SFieldType)

/-- `Schema::get_field(name)` together with `get_field_entry(..).field_type()`:
resolves a field name to its positional field id and its type. -/
def getField (schema : SchemaM) (name : String) : Option (Nat × SFieldType) :=
  let rec go : List (String × SFieldType) → Nat → Option (Nat × SFieldType)
    | [], _ => none
    | (n, ft) :: rest, i => if n = name then some (i, ft) else go rest (i + 1)
  go schema 0

/-! ## Term and query model

Typed values as carried by `tantivy::Term` (`Term::from_field_text`,
`from_field_u64`, ...), and the structural query tree built by the
query-compilation NIFs. -/

/-- The typed value inside a `tantivy::Term`. -/
inductive TermValue where
  | text (s : String)
  | u64 (n : Nat)
  | i64 (n : Int)
  | boolV (b : Bool)
  | dateSecs (secs : Int)
  | facetPath (path : String)
  deriving DecidableEq, Repr

/-- A `tantivy::Term`: field id plus typed value. -/
structure STerm where
  field : Nat
  value : TermValue
  deriving DecidableEq, Repr

/-- `tantivy::query::Occur`. -/
inductive SOccur where
  | must
  | should
  | mustNot
  deriving DecidableEq, Repr

/-- The structural query tree assembled by the query NIFs
(`TermQuery`, `BooleanQuery`, `PhraseQuery`, `RegexQuery`). -/
inductive SQuery where
  | term (t : STerm) (opt : IdxRecordOption)
  | boolean (clauses : List (SOccur × SQuery))
  | phrase (terms : List STerm)
  | regex (field : Nat) (pattern : String)
  | multiterms (terms : List STerm)

/-! ## `query_term` (modules/query.rs, `FieldType::Str` branch, lines 96-133)

For a tokenized text field a multi-word input becomes a Boolean
Must-conjunction of lower-cased per-word terms, a single word a single
lower-cased term; a non-tokenized text field uses the input verbatim.
Note: this branch never consults the field's `IndexRecordOption`. -/

def queryTermStr (field : Nat) (opts : TextOpts) (termValue : String) : SQuery :=
  match opts.indexing with
  | some _ =>
      let words := splitWhitespace termValue
      if words.length > 1 then
        .boolean (words.map fun w =>
          (SOccur.must, SQuery.term ⟨field, .text (lowercase w)⟩ .basic))
      else
        .term ⟨field, .text (lowercase termValue)⟩ .basic
  | none => .term ⟨field, .text termValue⟩ .basic

/-! ## `writer_delete_term` (modules/document.rs)

The deletion resolver either deletes by an exact term
(`writer.delete_term`) or by a compensating query
(`writer.delete_query`). -/

/-- The deletion action `writer_delete_term` hands to the engine. -/
inductive DeleteAction where
  | byTerm (t : STerm)
  | byQuery (q : SQuery)

/-- `writer_delete_term`, `FieldType::Str` branch (document.rs lines
235-302), given an input that decodes as a string: tokenized fields
delete by query — single word: term query; multi-word: phrase query when
positions are indexed, otherwise Boolean Must — all per-word
lower-cased; non-tokenized fields delete by exact term. -/
def writerDeleteTermStr (field : Nat) (opts : TextOpts) (stringVal : String) :
    DeleteAction :=
  match opts.indexing with
  | some indexing =>
      let words := splitWhitespace stringVal
      if words.length = 1 then
        .byQuery (.term ⟨field, .text (lowercase (words.headD ""))⟩ .basic)
      else if indexing.recordOption.hasPositions then
        .byQuery (.phrase (words.map fun w => ⟨field, .text (lowercase w)⟩))
      else
        .byQuery (.boolean (words.map fun w =>
          (SOccur.must, SQuery.term ⟨field, .text (lowercase w)⟩ .basic)))
  | none => .byTerm ⟨field, .text stringVal⟩

/-! ## Structural strategy of a compiled query / deletion (claims C1, C6) -/

/-- The structural strategy a query or deletion resolution picked for a
value: a phrase query, a Boolean query all of whose clauses are `Must`,
a single term, or anything else. -/
inductive MultiWordStrategy where
  | phraseQ
  | booleanMustQ
  | termQ
  | otherQ
  deriving DecidableEq, Repr

/-- Classifies a query tree by its outermost structure. -/
def SQuery.strategy : SQuery → MultiWordStrategy
  | .phrase _ => .phraseQ
  | .boolean cs => if cs.all fun c => c.1 = .must then .booleanMustQ else .otherQ
  | .term _ _ => .termQ
  | .regex _ _ => .otherQ
  | .multiterms _ => .otherQ

/-- Classifies a deletion action by the structure of what it hands the
engine. -/
def DeleteAction.strategy : DeleteAction → MultiWordStrategy
  | .byTerm _ => .termQ
  | .byQuery q => q.strategy

/-- Claim C1 as stated: for every tokenized text field and every
multi-word input, `query_term` and `writer_delete_term` pick the same
structural strategy — phrase when positions are tracked, Boolean-Must
when not. -/
def ClaimC1 : Prop :=
  ∀ (field : Nat) (opts : TextOpts) (idx : TextIndexing) (s : String),
    opts.indexing = some idx → 1 < (splitWhitespace s).length →
    (queryTermStr field opts s).strategy = (writerDeleteTermStr field opts s).strategy ∧
    (queryTermStr field opts s).strategy =
      (if idx.recordOption.hasPositions then .phraseQ else .booleanMustQ)

/-! ## `query_wildcard` (modules/query.rs, lines 425-471)

The wildcard pattern is turned into a regex pattern by
`pattern.replace('*', ".*").replace('?', ".")` and handed to
`RegexQuery::from_pattern`; if that fails and the pattern is a pure
prefix pattern (`literal*`), a `TermQuery` on the literal with
`IndexRecordOption::WithFreqs` is built instead.  Regex compilation is
engine behaviour and is passed in as the predicate `regexOk`. -/

/-- `s.contains c` on the underlying characters (models Rust
`str::contains(char)`). -/
def strContains (s : String) (c : Char) : Bool :=
  s.data.contains c

/-- Whether the last character of `s` is `*` (models Rust
`str::ends_with('*')`). -/
def lastIsStar (s : String) : Bool :=
  s.data.getLast? = some '*'

/-- Drops the final character (models the byte slice
`&pattern[..pattern.len() - 1]` in the case where the final character is
the one-byte `*`). -/
def dropLastChar (s : String) : String :=
  String.mk s.data.dropLast

/-- Models `pattern.replace('*', ".*").replace('?', ".")` (query.rs line
442): each `*` becomes `.*`, each `?` becomes `.`, and — the first
replacement introducing no `?` and the second no `*` — every other
character is copied through unchanged, with no escaping. -/
def wildcardToRegex (p : String) : String :=
  String.mk (p.data.foldr
    (fun c acc =>
      (if c = '*' then ['.', '*'] else if c = '?' then ['.'] else [c]) ++ acc)
    [])

/-- Modelled from the spec wording (refinement comparison only): the
translation the spec describes, which additionally escapes every regex
metacharacter in the literal (non-wildcard) portion. -/
def wildcardToRegexSpecEscaped (p : String) : String :=
  String.mk (p.data.foldr
    (fun c acc =>
      (if c = '*' then ['.', '*']
       else if c = '?' then ['.']
       else if ['.', '+', '(', ')', '[', ']', '^', '$', '|', '\\',
                Char.ofNat 123, Char.ofNat 125].contains c then ['\\', c]
       else [c]) ++ acc)
    [])

/-- The fallback guard of `query_wildcard`: the pattern ends with `*`,
the part before it contains no further `*`, and the pattern contains no
`?`. -/
def purePrefixPat (p : String) : Bool :=
  lastIsStar p && !(strContains (dropLastChar p) '*') && !(strContains p '?')

/-- `query_wildcard` (query.rs lines 425-471) after field resolution:
compile the translated pattern as a regex query; on regex failure fall
back to a term query on the literal for pure prefix patterns, otherwise
report an error.  (The Rust error string also interpolates the engine's
regex error, which `regexOk` does not model.) -/
def queryWildcard (regexOk : String → Bool) (field : Nat) (pattern : String) :
    Except String SQuery :=
  let regexPattern := wildcardToRegex pattern
  if regexOk regexPattern then
    .ok (.regex field regexPattern)
  else if purePrefixPat pattern then
    .ok (.term ⟨field, .text (dropLastChar pattern)⟩ .withFreqs)
  else
    .error "Failed to create wildcard query"

/-- Claim C3 as stated: the compiled regex pattern escapes all regex
metacharacters in the literal portion (and the pure-prefix fallback
behaves as described). -/
def ClaimC3 : Prop :=
  (∀ p : String, wildcardToRegex p = wildcardToRegexSpecEscaped p) ∧
  (∀ (regexOk : String → Bool) (field : Nat) (p : String),
    regexOk (wildcardToRegex p) = false → purePrefixPat p = true →
    queryWildcard regexOk field p = .ok (.term ⟨field, .text (dropLastChar p)⟩ .withFreqs))

/-! ## Facet term queries (modules/query.rs lines 708-742 and
modules/facet.rs lines 132-202)

Two NIFs named `facet_term_query` exist: the one in query.rs resolves
the target field by name through the schema; the one in facet.rs ignores
the supplied field name and builds the term on the placeholder
`Field::from_field_id(0)` (its own comment: "This is a hack - needs
proper field resolution"), as does `facet_multi_query`. -/

/-- `tantivy::schema::Facet::from_text` at its interface boundary: a
facet path parses exactly when it starts with the `/` separator. -/
def facetFromText (s : String) : Option String :=
  if s.data.head? = some '/' then some s else none

/-- `facet_term_query` of modules/query.rs (lines 708-742): resolve the
field by name, parse the facet path, and build an exact term query on
the resolved field.  (The Rust error strings also interpolate the
engine's parse error, which is not modelled.) -/
def facetTermQueryQueryRs (schema : SchemaM) (fieldName facetPath : String) :
    Except String SQuery :=
  match getField schema fieldName with
  | none => .error ("Field '" ++ fieldName ++ "' not found in schema")
  | some (field, _) =>
      match facetFromText facetPath with
      | none => .error ("Invalid facet path '" ++ facetPath ++ "'")
      | some fc => .ok (.term ⟨field, .facetPath fc⟩ .basic)

/-- `facet_term_query` of modules/facet.rs (lines 132-161): the field
name parameter is ignored and the term is built on
`Field::from_field_id(0)`. -/
def facetTermQueryFacetRs (_fieldName facetPath : String) :
    Except String SQuery :=
  match facetFromText facetPath with
  | none => .error ("Invalid facet path '" ++ facetPath ++ "'")
  | some fc => .ok (.term ⟨0, .facetPath fc⟩ .basic)

/-- The term-collection loop of `facet_multi_query` (facet.rs lines
177-194): each path is parsed and its term built on
`Field::from_field_id(0)`; the first invalid path aborts. -/
def collectFacetTermsFieldZero : List String → Except String (List STerm)
  | [] => .ok []
  | p :: rest =>
      match facetFromText p with
      | none => .error ("Invalid facet path '" ++ p ++ "'")
      | some fc =>
          match collectFacetTermsFieldZero rest with
          | .ok ts => .ok (⟨0, .facetPath fc⟩ :: ts)
          | .error e => .error e

/-- `facet_multi_query` of modules/facet.rs (lines 164-202): parses the
occur string (and then discards it), builds every term on
`Field::from_field_id(0)`, and combines them with
`BooleanQuery::new_multiterms_query`. -/
def facetMultiQueryFacetRs (_fieldName : String) (facetPaths : List String)
    (_occurStr : String) : Except String SQuery :=
  match collectFacetTermsFieldZero facetPaths with
  | .ok terms => .ok (.multiterms terms)
  | .error e => .error e

/-- A two-field schema whose facet field resolves to field id 1, used to
exhibit the placeholder-field bug. -/
def schemaC2 : SchemaM :=
  [("title", .str ⟨some ⟨.withFreqsAndPositions⟩⟩), ("category", .facet)]

/-! ## Dynamic values and rustler decoding (modules/document.rs)

A dynamic (Elixir) term as seen by the rustler decoders, and the typed
values a `TantivyDocument` accumulates.  `decode::<u64>` /
`decode::<i64>` succeed exactly on integers within the respective
machine range; `decode::<String>` on binaries; `decode::<bool>` on
booleans; `decode::<f64>` on floats (modelled as rationals — no claim
depends on float arithmetic); `decode::<Vec<Term>>` on lists. -/

/-- A dynamic caller-supplied value (an Elixir term). -/
inductive DynValue where
  | int (n : Int)
  | str (s : String)
  | boolV (b : Bool)
  | floatV (q : Rat)
  | list (items : List DynValue)
  | mapV (pairs : List (String × DynValue))

/-- A JSON value (`serde_json::Value`); numbers are modelled as
rationals. -/
inductive JsonVal where
  | null
  | boolV (b : Bool)
  | num (q : Rat)
  | str (s : String)
  | arr (items : List JsonVal)
  | obj (pairs : List (String × JsonVal))

/-- `value.decode::<String>()`. -/
def decodeStr : DynValue → Option String
  | .str s => some s
  | _ => none

/-- `value.decode::<u64>()`. -/
def decodeU64 : DynValue → Option Nat
  | .int n => if 0 ≤ n ∧ n < 2 ^ 64 then some n.toNat else none
  | _ => none

/-- `value.decode::<i64>()`. -/
def decodeI64 : DynValue → Option Int
  | .int n => if -(2 ^ 63) ≤ n ∧ n < 2 ^ 63 then some n else none
  | _ => none

/-- `value.decode::<f64>()`. -/
def decodeF64 : DynValue → Option Rat
  | .floatV q => some q
  | _ => none

/-- `value.decode::<bool>()`. -/
def decodeBool : DynValue → Option Bool
  | .boolV b => some b
  | _ => none

/-- `value.decode::<Vec<rustler::Term>>()`. -/
def decodeList : DynValue → Option (List DynValue)
  | .list items => some items
  | _ => none

/-- `value.decode::<Vec<u8>>()`: a list of integers in the byte range. -/
def decodeByteVec (v : DynValue) : Option (List Nat) :=
  match v with
  | .list items =>
      let bytes := items.map fun i =>
        match i with
        | .int n => if 0 ≤ n ∧ n < 256 then some n.toNat else none
        | _ => none
      if bytes.all Option.isSome then some (bytes.map fun b => b.getD 0)
      else none
  | _ => none

/-- `u64 as i64` (two's-complement wrap). -/
def wrapToI64 (n : Nat) : Int :=
  if n < 2 ^ 63 then (n : Int) else (n : Int) - 2 ^ 64

/-- A typed value added to a `TantivyDocument`. -/
inductive TypedValue where
  | text (s : String)
  | u64 (n : Nat)
  | i64 (n : Int)
  | f64 (q : Rat)
  | boolV (b : Bool)
  | dateSecs (secs : Int)
  | facetV (path : String)
  | bytes (bs : List Nat)
  | jsonObj (pairs : List (String × JsonVal))
  | ipV6 (canonical : String)

/-- External pure codecs used by document construction, passed in at
their interface boundary: RFC-3339 parsing to epoch seconds (chrono),
base64 decoding, JSON-string parsing (serde), and IP-address parsing
combined with the IPv4-to-IPv6 mapping of `convert_ip_to_ipv6`. -/
structure Codecs where
  rfc3339 : String → Option Int
  b64Decode : String → Option (List Nat)
  serdeParse : String → Option JsonVal
  parseIpToV6 : String → Option String

mutual

/-- `serde_json::to_string` at its interface: a plain recursive JSON
serializer (escaping of special characters inside strings and the exact
decimal rendering of numbers are not modelled; no claim depends on
them). -/
def jsonToString : JsonVal → String
  | .null => "null"
  | .boolV true => "true"
  | .boolV false => "false"
  | .num q => toString q
  | .str s => "\"" ++ s ++ "\""
  | .arr items => "[" ++ String.intercalate "," (jsonListStrings items) ++ "]"
  | .obj pairs => "\x7b" ++ String.intercalate "," (jsonObjStrings pairs) ++ "\x7d"

/-- Serialized elements of a JSON array (helper for `jsonToString`). -/
def jsonListStrings : List JsonVal → List String
  | [] => []
  | v :: rest => jsonToString v :: jsonListStrings rest

/-- Serialized members of a JSON object (helper for `jsonToString`). -/
def jsonObjStrings : List (String × JsonVal) → List String
  | [] => []
  | (k, v) :: rest => ("\"" ++ k ++ "\":" ++ jsonToString v) :: jsonObjStrings rest

end

/-- `convert_json_value_to_btreemap` (resources.rs lines 65-93): a
non-object becomes the empty map; an object becomes a shallow map in
which nested arrays/objects are re-serialized to strings and null
becomes the string "null".  (The i64/u64/f64 number split collapses in
the rational number model.) -/
def convertJsonValueToBtreemap : JsonVal → List (String × JsonVal)
  | .obj pairs =>
      pairs.map fun p =>
        (p.1,
          match p.2 with
          | .str s => .str s
          | .num q => .num q
          | .boolV b => .boolV b
          | .arr items => .str (jsonToString (.arr items))
          | .obj inner => .str (jsonToString (.obj inner))
          | .null => .str "null")
  | _ => []

mutual

/-- `convert_term_to_json_value` (document.rs lines 921-947): duck-typed
conversion of a dynamic term to JSON, probing string, i64, u64, f64,
bool, map, list in that order, defaulting to null. -/
def convertTermToJsonValue : DynValue → JsonVal
  | .str s => .str s
  | .int n =>
      if -(2 ^ 63) ≤ n ∧ n < 2 ^ 63 then .num (n : Rat)
      else if 0 ≤ n ∧ n < 2 ^ 64 then .num (n : Rat)
      else .null
  | .floatV q => .num q
  | .boolV b => .boolV b
  | .mapV pairs => .obj (convertTermPairs pairs)
  | .list items => .arr (convertTermItems items)

/-- Member-wise conversion of a dynamic map (helper for
`convert_term_to_json_value`). -/
def convertTermPairs : List (String × DynValue) → List (String × JsonVal)
  | [] => []
  | (k, v) :: rest => (k, convertTermToJsonValue v) :: convertTermPairs rest

/-- Element-wise conversion of a dynamic list (helper for
`convert_term_to_json_value`). -/
def convertTermItems : List DynValue → List JsonVal
  | [] => []
  | v :: rest => convertTermToJsonValue v :: convertTermItems rest

end

/-! ## `add_field_to_document` (document.rs lines 691-817)

The per-field coercion helper used by the batch path: returns the typed
values added, or the per-field error string. -/

def addFieldToDocument (codecs : Codecs) (fieldType : SFieldType)
    (value : DynValue) : Except String (List TypedValue) :=
  match fieldType with
  | .str _ =>
      match decodeStr value with
      | some s => .ok [.text s]
      | none => .error "Expected string value"
  | .u64 =>
      match decodeU64 value with
      | some n => .ok [.u64 n]
      | none =>
          match decodeI64 value with
          | some m =>
              if 0 ≤ m then .ok [.u64 m.toNat]
              else .error "Negative value not allowed for u64 field"
          | none => .error "Expected numeric value"
  | .i64 =>
      match decodeI64 value with
      | some m => .ok [.i64 m]
      | none =>
          match decodeU64 value with
          | some n => .ok [.i64 (wrapToI64 n)]
          | none => .error "Expected numeric value"
  | .f64 =>
      match decodeF64 value with
      | some q => .ok [.f64 q]
      | none =>
          match decodeI64 value with
          | some m => .ok [.f64 (m : Rat)]
          | none =>
              match decodeU64 value with
              | some n => .ok [.f64 (n : Rat)]
              | none => .error "Expected numeric value"
  | .boolF =>
      match decodeBool value with
      | some b => .ok [.boolV b]
      | none => .error "Expected boolean value"
  | .date =>
      match decodeI64 value with
      | some ts => .ok [.dateSecs ts]
      | none =>
          match decodeStr value with
          | some s =>
              match codecs.rfc3339 s with
              | some ts => .ok [.dateSecs ts]
              | none => .error "Invalid date format, expected ISO 8601"
          | none => .error "Expected timestamp (integer) or ISO 8601 date string"
  | .facet =>
      match decodeStr value with
      | some s =>
          match facetFromText s with
          | some fc => .ok [.facetV fc]
          | none => .error "Invalid facet format"
      | none =>
          match decodeList value with
          | some items =>
              .ok (items.filterMap fun item =>
                match decodeStr item with
                | some s => (facetFromText s).map TypedValue.facetV
                | none => none)
          | none => .error "Expected string value or array of strings for facet"
  | .bytes =>
      match decodeByteVec value with
      | some bs => .ok [.bytes bs]
      | none =>
          match decodeStr value with
          | some s =>
              match codecs.b64Decode s with
              | some bs => .ok [.bytes bs]
              | none => .error "Invalid base64 encoding"
          | none => .error "Expected byte array or base64 string"
  | .jsonObject =>
      .ok [.jsonObj (convertJsonValueToBtreemap (convertTermToJsonValue value))]
  | .ipAddr =>
      match decodeStr value with
      | some s =>
          match codecs.parseIpToV6 s with
          | some ip => .ok [.ipV6 ip]
          | none => .error "Invalid IP address format"
      | none => .error "Expected string value for IP address"

/-! ## The single-document add paths (document.rs)

`writer_add_document` (lines 17-140) and
`writer_add_document_with_schema` (lines 456-582) decode each field
value with a chain of `if let Ok(..) = value.decode::<..>()` probes and
silently skip the field when every probe fails; they have no per-field
error channel and always reach `writer.add_document`. -/

/-- UTF-8 bytes of a string (Rust `str::as_bytes`). -/
def utf8Bytes (s : String) : List Nat :=
  s.toUTF8.toList.map fun b => b.toNat

/-- The per-field decoding of `writer_add_document` (document.rs lines
45-129): the typed values added for one field (possibly none — probe
failures are silent). -/
def writerAddDocumentField (codecs : Codecs) (fieldType : SFieldType)
    (value : DynValue) : List TypedValue :=
  match fieldType with
  | .str _ =>
      match decodeStr value with
      | some s => [.text s]
      | none => []
  | .u64 =>
      match decodeU64 value with
      | some n => [.u64 n]
      | none =>
          match decodeI64 value with
          | some m => if 0 ≤ m then [.u64 m.toNat] else []
          | none => []
  | .i64 =>
      match decodeI64 value with
      | some m => [.i64 m]
      | none =>
          match decodeU64 value with
          | some n => [.i64 (wrapToI64 n)]
          | none => []
  | .f64 =>
      match decodeF64 value with
      | some q => [.f64 q]
      | none =>
          match decodeI64 value with
          | some m => [.f64 (m : Rat)]
          | none =>
              match decodeU64 value with
              | some n => [.f64 (n : Rat)]
              | none => []
  | .boolF =>
      match decodeBool value with
      | some b => [.boolV b]
      | none => []
  | .date =>
      match decodeI64 value with
      | some ts => [.dateSecs ts]
      | none =>
          match decodeU64 value with
          | some n => [.dateSecs (wrapToI64 n)]
          | none => []
  | .facet =>
      match decodeStr value with
      | some s =>
          match facetFromText s with
          | some fc => [.facetV fc]
          | none => []
      | none =>
          match decodeList value with
          | some items =>
              items.filterMap fun item =>
                match decodeStr item with
                | some s => (facetFromText s).map TypedValue.facetV
                | none => none
          | none => []
  | .bytes =>
      match decodeByteVec value with
      | some bs => [.bytes bs]
      | none =>
          match decodeStr value with
          | some s => [.bytes (utf8Bytes s)]
          | none => []
  | .jsonObject =>
      match decodeStr value with
      | some jsonStr =>
          match codecs.serdeParse jsonStr with
          | some jv => [.jsonObj (convertJsonValueToBtreemap jv)]
          | none => []
      | none => []
  | .ipAddr =>
      match decodeStr value with
      | some s =>
          match codecs.parseIpToV6 s with
          | some ip => [.ipV6 ip]
          | none => []
      | none => []

/-- The per-field decoding of `writer_add_document_with_schema`
(document.rs lines 485-571); it differs from `writer_add_document` in
the F64 (no u64 probe), Date (RFC-3339 string instead of u64), Bytes
(base64 string only) and JsonObject (direct dynamic conversion)
branches. -/
def writerAddDocumentWithSchemaField (codecs : Codecs)
    (fieldType : SFieldType) (value : DynValue) : List TypedValue :=
  match fieldType with
  | .str _ =>
      match decodeStr value with
      | some s => [.text s]
      | none => []
  | .u64 =>
      match decodeU64 value with
      | some n => [.u64 n]
      | none =>
          match decodeI64 value with
          | some m => if 0 ≤ m then [.u64 m.toNat] else []
          | none => []
  | .i64 =>
      match decodeI64 value with
      | some m => [.i64 m]
      | none =>
          match decodeU64 value with
          | some n => [.i64 (wrapToI64 n)]
          | none => []
  | .f64 =>
      match decodeF64 value with
      | some q => [.f64 q]
      | none =>
          match decodeI64 value with
          | some m => [.f64 (m : Rat)]
          | none => []
  | .boolF =>
      match decodeBool value with
      | some b => [.boolV b]
      | none => []
  | .date =>
      match decodeI64 value with
      | some ts => [.dateSecs ts]
      | none =>
          match decodeStr value with
          | some s =>
              match codecs.rfc3339 s with
              | some ts => [.dateSecs ts]
              | none => []
          | none => []
  | .facet =>
      match decodeStr value with
      | some s =>
          match facetFromText s with
          | some fc => [.facetV fc]
          | none => []
      | none =>
          match decodeList value with
          | some items =>
              items.filterMap fun item =>
                match decodeStr item with
                | some s => (facetFromText s).map TypedValue.facetV
                | none => none
          | none => []
  | .bytes =>
      match decodeStr value with
      | some s =>
          match codecs.b64Decode s with
          | some bs => [.bytes bs]
          | none => []
      | none => []
  | .jsonObject =>
      [.jsonObj (convertJsonValueToBtreemap (convertTermToJsonValue value))]
  | .ipAddr =>
      match decodeStr value with
      | some s =>
          match codecs.parseIpToV6 s with
          | some ip => [.ipV6 ip]
          | none => []
      | none => []

/-- The field loop of `writer_add_document` (lines 40-131): unknown
fields are skipped, known fields contribute whatever their probes
decode. -/
def processSingleDoc (codecs : Codecs) (schema : SchemaM) :
    List (String × DynValue) → List (Nat × TypedValue)
  | [] => []
  | (name, v) :: rest =>
      match getField schema name with
      | none => processSingleDoc codecs schema rest
      | some (f, ft) =>
          (writerAddDocumentField codecs ft v).map (fun tv => (f, tv)) ++
            processSingleDoc codecs schema rest

/-- The field loop of `writer_add_document_with_schema` (lines 480-573):
same silent-skip structure with the schema-aware per-field probes. -/
def processSingleDocWithSchema (codecs : Codecs) (schema : SchemaM) :
    List (String × DynValue) → List (Nat × TypedValue)
  | [] => []
  | (name, v) :: rest =>
      match getField schema name with
      | none => processSingleDocWithSchema codecs schema rest
      | some (f, ft) =>
          (writerAddDocumentWithSchemaField codecs ft v).map (fun tv => (f, tv)) ++
            processSingleDocWithSchema codecs schema rest

/-- `writer_add_document` end-to-end: the assembled document is always
handed to `writer.add_document` and (engine failures aside) the NIF
reports success — field decoding has no error channel. -/
def writerAddDocumentNif (codecs : Codecs) (schema : SchemaM)
    (doc : List (String × DynValue)) : Except String (List (Nat × TypedValue)) :=
  .ok (processSingleDoc codecs schema doc)

/-- The per-document loop body of `writer_add_document_batch`
(document.rs lines 607-638): fields of unknown name are skipped; the
first known field whose coercion fails aborts the document with the
field-naming error (`break`), and an error-free document yields the
typed values handed to `add_document`. -/
def processBatchDoc (codecs : Codecs) (schema : SchemaM) :
    List (String × DynValue) → Except String (List (Nat × TypedValue))
  | [] => .ok []
  | (name, v) :: rest =>
      match getField schema name with
      | none => processBatchDoc codecs schema rest
      | some (f, ft) =>
          match addFieldToDocument codecs ft v with
          | .ok vs =>
              match processBatchDoc codecs schema rest with
              | .ok tvs => .ok (vs.map (fun tv => (f, tv)) ++ tvs)
              | .error e => .error e
          | .error e => .error ("Field '" ++ name ++ "': " ++ e)

/-! ## `writer_delete_term`, scalar branches (document.rs) -/

/-- `writer_delete_term`, `FieldType::U64` branch (document.rs lines
303-335): u64 and non-negative i64 inputs delete by exact term, a
negative i64 is rejected, a string is parsed as u64, anything else is a
type error. -/
def writerDeleteTermU64 (field : Nat) (termField : String) (value : DynValue) :
    Except String DeleteAction :=
  match decodeU64 value with
  | some n => .ok (.byTerm ⟨field, .u64 n⟩)
  | none =>
      match decodeI64 value with
      | some m =>
          if 0 ≤ m then .ok (.byTerm ⟨field, .u64 m.toNat⟩)
          else .error "Negative value not allowed for u64 field"
      | none =>
          match decodeStr value with
          | some s =>
              match parseU64 s with
              | some n => .ok (.byTerm ⟨field, .u64 n⟩)
              | none =>
                  .error ("Cannot parse '" ++ s ++ "' as u64 for field '" ++
                    termField ++ "'")
          | none =>
              .error "Invalid value for u64 field - expected number or numeric string"

/-- The lenient true-strings of the bool parsers (query.rs line 188,
document.rs line 396). -/
def trueStrings : List String := ["true", "t", "1", "yes", "y"]

/-- The lenient false-strings of the bool parsers (query.rs line 189,
document.rs line 397). -/
def falseStrings : List String := ["false", "f", "0", "no", "n"]

/-- `writer_delete_term`, `FieldType::Bool` branch (document.rs lines
390-416): a native boolean deletes by exact term; a string is matched
case-insensitively against the lenient true/false sets; anything else
is an error. -/
def writerDeleteTermBool (field : Nat) (termField : String) (value : DynValue) :
    Except String DeleteAction :=
  match decodeBool value with
  | some b => .ok (.byTerm ⟨field, .boolV b⟩)
  | none =>
      match decodeStr value with
      | some s =>
          if lowercase s ∈ trueStrings then .ok (.byTerm ⟨field, .boolV true⟩)
          else if lowercase s ∈ falseStrings then
            .ok (.byTerm ⟨field, .boolV false⟩)
          else
            .error ("Cannot parse '" ++ s ++ "' as boolean for field '" ++
              termField ++ "'")
      | none =>
          .error "Invalid value for bool field - expected boolean or boolean string"

/-- Trivial external codecs (every external parser fails); enough for
claims that never exercise them. -/
def noCodecs : Codecs :=
  ⟨fun _ => none, fun _ => none, fun _ => none, fun _ => none⟩

/-- A one-field schema with a U64 field "count". -/
def schemaCount : SchemaM := [("count", .u64)]

/-- A two-field schema: tokenized text "title" and U64 "count". -/
def schemaTitleCount : SchemaM :=
  [("title", .str ⟨some ⟨.basic⟩⟩), ("count", .u64)]

/-- Claim C4 as stated: every negative integer supplied for a U64 field
makes every document-building path (single add, schema-aware add, batch
add) and deletion resolution fail with the negative-for-unsigned
error. -/
def ClaimC4 : Prop :=
  ∀ (codecs : Codecs) (n : Int), n < 0 →
    addFieldToDocument codecs .u64 (.int n) =
      .error "Negative value not allowed for u64 field" ∧
    writerDeleteTermU64 0 "count" (.int n) =
      .error "Negative value not allowed for u64 field" ∧
    (∃ e, writerAddDocumentNif codecs schemaCount [("count", .int n)] = .error e) ∧
    (∃ e, (Except.ok (processSingleDocWithSchema codecs schemaCount
      [("count", .int n)]) : Except String (List (Nat × TypedValue))) = .error e)

/-- Claim C5 as stated: a dynamic document with at least one known field
whose value fails coercion is rejected whole — never handed to
`add_document` — in both the batch path and the single-document path. -/
def ClaimC5 : Prop :=
  ∀ (codecs : Codecs) (schema : SchemaM) (doc : List (String × DynValue)),
    (∃ p ∈ doc, ∃ f ft, getField schema p.1 = some (f, ft) ∧
      ∃ e, addFieldToDocument codecs ft p.2 = .error e) →
    (∃ e, processBatchDoc codecs schema doc = .error e) ∧
    (∃ e, writerAddDocumentNif codecs schema doc = .error e)

/-- Claim C7 as stated: Bool-field coercion of a document value accepts
both a native boolean and a lenient true/false string, case
insensitively. -/
def ClaimC7 : Prop :=
  ∀ (codecs : Codecs) (b : Bool) (s : String),
    addFieldToDocument codecs .boolF (.boolV b) = .ok [.boolV b] ∧
    (lowercase s ∈ trueStrings →
      addFieldToDocument codecs .boolF (.str s) = .ok [.boolV true]) ∧
    (lowercase s ∈ falseStrings →
      addFieldToDocument codecs .boolF (.str s) = .ok [.boolV false])

/-! ## Aggregation requests (modules/aggregation.rs lines 20-59)

`AggregationRequest` with its kind, target field, options and named
sub-requests.  The `HashMap<String, AggregationRequest>` of named
(sub-)requests is modelled as the association-list type `SubAggs`
(hash-map iteration order is arbitrary in the source; no claim depends
on it).  `f64`-valued parameters are modelled as rationals. -/

/-- `RangeSpec` (aggregation.rs lines 47-52). -/
structure RangeSpecM where
  fromV : Option Rat
  toV : Option Rat
  key : Option String

/-- `AggregationType` (aggregation.rs lines 29-45). -/
inductive AggTypeM where
  | terms (size : Option Nat)
  | histogram (interval : Rat)
  | dateHistogram (interval : String)
  | range (ranges : List RangeSpecM)
  | avg
  | min
  | max
  | sum
  | count
  | stats
  | percentiles (percents : List Rat)

/-- `AggregationOptions` (aggregation.rs lines 54-59). -/
structure AggOptionsM where
  minDocCount : Option Nat
  missing : Option String
  keyed : Option Bool

mutual

/-- `AggregationRequest` (aggregation.rs lines 20-27). -/
inductive AggRequest where
  | mk (name : String) (aggregationType : AggTypeM) (field : String)
      (subAggregations : SubAggs) (options : AggOptionsM)

/-- A named map of aggregation requests (`HashMap<String,
AggregationRequest>`). -/
inductive SubAggs where
  | nil
  | cons (name : String) (r : AggRequest) (rest : SubAggs)

end

/-- The target field of a request. -/
def AggRequest.field : AggRequest → String
  | .mk _ _ f _ _ => f

/-- The sub-request map of a request. -/
def AggRequest.subs : AggRequest → SubAggs
  | .mk _ _ _ s _ => s

/-- Name lookup in a request map (`HashMap::get`). -/
def SubAggs.lookup : SubAggs → String → Option AggRequest
  | .nil, _ => none
  | .cons n r rest, name => if n = name then some r else SubAggs.lookup rest name

/-! ## The compiled aggregation tree (`tantivy::aggregation::agg_req`)

Mirrors `Aggregation { agg: AggregationVariants, sub_aggregation:
Aggregations }`; the always-`None` fields the source never sets
(`segment_size`, `order`, `missing`, `offset`, `extended_bounds`,
`hard_bounds`, `format`) are elided. -/

/-- `TermsAggregation` as built at aggregation.rs lines 356-364. -/
structure TermsAggM where
  field : String
  size : Option Nat
  minDocCount : Option Nat
  showTermDocCountError : Option Bool

/-- `HistogramAggregation` as built at lines 368-377. -/
structure HistogramAggM where
  field : String
  interval : Rat
  minDocCount : Option Nat
  keyed : Bool

/-- `DateHistogramAggregationReq` as built at lines 381-392. -/
structure DateHistogramAggM where
  field : String
  fixedInterval : Option String
  minDocCount : Option Nat
  keyed : Bool

/-- `RangeAggregation` as built at lines 405-409. -/
structure RangeAggM where
  field : String
  ranges : List RangeSpecM
  keyed : Bool

/-- The single-field metric aggregations (`AverageAggregation` etc.,
whose `missing` is always `None` here). -/
structure MetricAggM where
  field : String

/-- `PercentilesAggregationReq` as built at lines 455-460. -/
structure PercentilesAggM where
  field : String
  percents : List Rat
  keyed : Bool

/-- `AggregationVariants` (the variants the source constructs). -/
inductive AggVariantM where
  | terms (t : TermsAggM)
  | histogram (h : HistogramAggM)
  | dateHistogram (d : DateHistogramAggM)
  | range (r : RangeAggM)
  | average (m : MetricAggM)
  | minV (m : MetricAggM)
  | maxV (m : MetricAggM)
  | sumV (m : MetricAggM)
  | countV (m : MetricAggM)
  | statsV (m : MetricAggM)
  | percentiles (p : PercentilesAggM)

mutual

/-- `tantivy::aggregation::agg_req::Aggregation`. -/
inductive AggregationM where
  | mk (agg : AggVariantM) (subAggregation : AggregationsM)

/-- `tantivy::aggregation::agg_req::Aggregations` (a named map). -/
inductive AggregationsM where
  | nil
  | cons (name : String) (a : AggregationM) (rest : AggregationsM)

end

/-- The variant construction of `build_single_tantivy_aggregation`
(aggregation.rs lines 354-463): dispatch on the request kind, filling
defaults (`size` 10, `min_doc_count` 1, `keyed` false — true for
percentiles, `show_term_doc_count_error` false). -/
def buildAggVariant (aggType : AggTypeM) (fieldName : String)
    (options : AggOptionsM) : AggVariantM :=
  match aggType with
  | .terms size =>
      .terms ⟨fieldName, some (size.getD 10), some (options.minDocCount.getD 1),
        some false⟩
  | .histogram interval =>
      .histogram ⟨fieldName, interval, some (options.minDocCount.getD 1),
        options.keyed.getD false⟩
  | .dateHistogram interval =>
      .dateHistogram ⟨fieldName, some interval, some (options.minDocCount.getD 1),
        options.keyed.getD false⟩
  | .range ranges => .range ⟨fieldName, ranges, options.keyed.getD false⟩
  | .avg => .average ⟨fieldName⟩
  | .min => .minV ⟨fieldName⟩
  | .max => .maxV ⟨fieldName⟩
  | .sum => .sumV ⟨fieldName⟩
  | .count => .countV ⟨fieldName⟩
  | .stats => .statsV ⟨fieldName⟩
  | .percentiles percents =>
      .percentiles ⟨fieldName, percents, options.keyed.getD true⟩

mutual

/-- `build_single_tantivy_aggregation` (aggregation.rs lines 343-469):
resolve the target field in the schema (error naming the field when
absent), compile the sub-aggregations, then build the variant. -/
def buildSingleTantivyAggregation (schema : SchemaM) :
    AggRequest → Except String AggregationM
  | .mk _ aggType field subs options =>
      match getField schema field with
      | none => .error ("Field '" ++ field ++ "' not found in schema")
      | some _ =>
          match buildSubAggregations schema subs with
          | .error e => .error e
          | .ok subAggs => .ok (.mk (buildAggVariant aggType field options) subAggs)

/-- `build_sub_aggregations` (aggregation.rs lines 471-483): compile
each named sub-request, propagating the first error. -/
def buildSubAggregations (schema : SchemaM) :
    SubAggs → Except String AggregationsM
  | .nil => .ok .nil
  | .cons name r rest =>
      match buildSingleTantivyAggregation schema r with
      | .error e => .error e
      | .ok a =>
          match buildSubAggregations schema rest with
          | .error e => .error e
          | .ok rest' => .ok (.cons name a rest')

end

/-- `build_tantivy_aggregations` (aggregation.rs lines 329-341): the
top-level request map is compiled with the same per-request loop. -/
def buildTantivyAggregations (schema : SchemaM) (requests : SubAggs) :
    Except String AggregationsM :=
  buildSubAggregations schema requests

mutual

/-- Whether a request tree mentions a field absent from the schema. -/
def reqHasMissingField (schema : SchemaM) : AggRequest → Bool
  | .mk _ _ field subs _ =>
      (getField schema field).isNone || subsHaveMissingField schema subs

/-- Whether any request in a map mentions a field absent from the
schema. -/
def subsHaveMissingField (schema : SchemaM) : SubAggs → Bool
  | .nil => false
  | .cons _ r rest =>
      reqHasMissingField schema r || subsHaveMissingField schema rest

end

/-! ## Aggregation results and their projection to JSON
(modules/aggregation.rs lines 485-700)

`AggregationResults` is a named map of bucket or metric results; bucket
entries recursively carry sub-results.  `serde_json::Map` is a
`BTreeMap`; its content is modelled as an association list with
replace-or-append insertion (the sorted key order of the real map is
not modelled — no claim depends on member order). -/

/-- First-match lookup in a JSON object's member list
(`serde_json::Map::get`). -/
def lookupPairs : List (String × JsonVal) → String → Option JsonVal
  | [], _ => none
  | (k, v) :: rest, key => if k = key then some v else lookupPairs rest key

/-- `serde_json::Map::insert`: replace the member if the key is present,
append it otherwise. -/
def mapInsert : List (String × JsonVal) → String → JsonVal → List (String × JsonVal)
  | [], k, v => [(k, v)]
  | (k', v') :: rest, k, v =>
      if k' = k then (k, v) :: rest else (k', v') :: mapInsert rest k v

/-- Insert every member of `ps` into `m` in order (the
`for (sub_name, sub_value) in sub_aggs { bucket_obj.insert(..) }`
loops). -/
def insertAll (m ps : List (String × JsonVal)) : List (String × JsonVal) :=
  ps.foldl (fun acc p => mapInsert acc p.1 p.2) m

/-- `tantivy::aggregation::Key` (aggregation.rs lines 693-700). -/
inductive KeyM where
  | str (s : String)
  | f64 (q : Rat)
  | i64 (n : Int)
  | u64 (n : Nat)

/-- `convert_key_to_json` (aggregation.rs lines 693-700). -/
def keyToJson : KeyM → JsonVal
  | .str s => .str s
  | .f64 q => .num q
  | .i64 n => .num (n : Rat)
  | .u64 n => .num (n : Rat)

/-- `MetricResult` at its interface: the scalar metrics carry an
optional value (`None` renders as JSON null), stats carries its five
components, percentiles a label-to-value map, and the unimplemented
kinds only their tag. -/
inductive MetricResultM where
  | average (value : Option Rat)
  | countM (value : Option Rat)
  | maxM (value : Option Rat)
  | minM (value : Option Rat)
  | sumM (value : Option Rat)
  | stats (count : Nat) (minV maxV avgV : Option Rat) (sumV : Rat)
  | percentiles (values : List (String × Rat))
  | extendedStats
  | topHits
  | cardinality

/-- An optional scalar as JSON (`json!` of an `Option<f64>`). -/
def optNumToJson : Option Rat → JsonVal
  | some q => .num q
  | none => .null

/-- `convert_metric_result_to_json` (aggregation.rs lines 622-691):
scalar metrics project to an object with a single "value" member, stats
to its five members, percentiles to a "values" object, and the
unimplemented kinds to an explicit error marker object. -/
def convertMetricResultToJson : MetricResultM → JsonVal
  | .average v => .obj [("value", optNumToJson v)]
  | .countM v => .obj [("value", optNumToJson v)]
  | .maxM v => .obj [("value", optNumToJson v)]
  | .minM v => .obj [("value", optNumToJson v)]
  | .sumM v => .obj [("value", optNumToJson v)]
  | .stats c mn mx av su =>
      .obj [("count", .num (c : Rat)), ("min", optNumToJson mn),
            ("max", optNumToJson mx), ("avg", optNumToJson av),
            ("sum", .num su)]
  | .percentiles vals =>
      .obj [("values", .obj (vals.map fun p => (p.1, JsonVal.num p.2)))]
  | .extendedStats => .obj [("error", .str "ExtendedStats not implemented yet")]
  | .topHits => .obj [("error", .str "TopHits not implemented yet")]
  | .cardinality => .obj [("error", .str "Cardinality not implemented yet")]

mutual

/-- `AggregationResults` (a named map of results). -/
inductive AggResultsM where
  | nil
  | cons (name : String) (r : AggResultM) (rest : AggResultsM)

/-- `AggregationResult`: bucket or metric. -/
inductive AggResultM where
  | bucket (b : BucketResultM)
  | metric (m : MetricResultM)

/-- `BucketResult`: Terms carries buckets plus the two summary counts;
Histogram and Range carry their buckets (`BucketEntries::Vec` and
`BucketEntries::HashMap` are both modelled as the list of entries the
iterator yields). -/
inductive BucketResultM where
  | terms (buckets : TermsBucketsM) (sumOtherDocCount : Nat)
      (docCountErrorUpperBound : Nat)
  | histogram (buckets : HBucketsM)
  | range (buckets : RBucketsM)

/-- The bucket list of a Terms result. -/
inductive TermsBucketsM where
  | nil
  | cons (b : TermsBucketM) (rest : TermsBucketsM)

/-- One Terms bucket: key, doc count and nested sub-results. -/
inductive TermsBucketM where
  | mk (key : KeyM) (docCount : Nat) (subAggregation : AggResultsM)

/-- The bucket list of a Histogram result. -/
inductive HBucketsM where
  | nil
  | cons (b : HBucketM) (rest : HBucketsM)

/-- One Histogram bucket. -/
inductive HBucketM where
  | mk (key : KeyM) (docCount : Nat) (subAggregation : AggResultsM)

/-- The bucket list of a Range result. -/
inductive RBucketsM where
  | nil
  | cons (b : RBucketM) (rest : RBucketsM)

/-- One Range bucket (its key is a string). -/
inductive RBucketM where
  | mk (fromV toV : Option Rat) (key : String) (docCount : Nat)
      (subAggregation : AggResultsM)

end

/-- `AggregationResults::is_empty` (the
`!bucket.sub_aggregation.0.is_empty()` guard). -/
def aggResultsIsEmpty : AggResultsM → Bool
  | .nil => true
  | .cons _ _ _ => false

mutual

/-- The member list of `convert_aggregation_result_to_json`
(aggregation.rs lines 485-499): one member per named result whose name
also appears in the request map; results without a matching request are
dropped. -/
def convertAggregationResultPairs : AggResultsM → SubAggs → List (String × JsonVal)
  | .nil, _ => []
  | .cons name r rest, reqs =>
      match reqs.lookup name with
      | some req =>
          (name, convertAggResultToJson r req) ::
            convertAggregationResultPairs rest reqs
      | none => convertAggregationResultPairs rest reqs

/-- `convert_agg_result_to_json` (aggregation.rs lines 501-515). -/
def convertAggResultToJson : AggResultM → AggRequest → JsonVal
  | .bucket b, req => convertBucketResultToJson b req
  | .metric m, _ => convertMetricResultToJson m

/-- `convert_bucket_result_to_json` (aggregation.rs lines 517-620). -/
def convertBucketResultToJson : BucketResultM → AggRequest → JsonVal
  | .terms buckets so dc, req =>
      .obj [("doc_count_error_upper_bound", .num (dc : Rat)),
            ("sum_other_doc_count", .num (so : Rat)),
            ("buckets", .arr (convertTermsBucketsJson buckets req))]
  | .histogram buckets, req =>
      .obj [("buckets", .arr (convertHBucketsJson buckets req))]
  | .range buckets, req =>
      .obj [("buckets", .arr (convertRBucketsJson buckets req))]

/-- The Terms bucket list projection (aggregation.rs lines 529-549). -/
def convertTermsBucketsJson : TermsBucketsM → AggRequest → List JsonVal
  | .nil, _ => []
  | .cons b rest, req =>
      .obj (convertTermsBucketPairs b req) :: convertTermsBucketsJson rest req

/-- One Terms bucket object (aggregation.rs lines 531-547): "key" and
"doc_count" members, then — when the bucket has sub-results — each
projected sub-aggregation member inserted directly into the same
object. -/
def convertTermsBucketPairs : TermsBucketM → AggRequest → List (String × JsonVal)
  | .mk key docCount subAgg, req =>
      let base := [("key", keyToJson key), ("doc_count", JsonVal.num (docCount : Rat))]
      if aggResultsIsEmpty subAgg then base
      else insertAll base (convertAggregationResultPairs subAgg req.subs)

/-- The Histogram bucket list projection (aggregation.rs lines
556-582). -/
def convertHBucketsJson : HBucketsM → AggRequest → List JsonVal
  | .nil, _ => []
  | .cons b rest, req =>
      .obj (convertHBucketPairs b req) :: convertHBucketsJson rest req

/-- One Histogram bucket object (aggregation.rs lines 562-578). -/
def convertHBucketPairs : HBucketM → AggRequest → List (String × JsonVal)
  | .mk key docCount subAgg, req =>
      let base := [("key", keyToJson key), ("doc_count", JsonVal.num (docCount : Rat))]
      if aggResultsIsEmpty subAgg then base
      else insertAll base (convertAggregationResultPairs subAgg req.subs)

/-- The Range bucket list projection (aggregation.rs lines 584-617). -/
def convertRBucketsJson : RBucketsM → AggRequest → List JsonVal
  | .nil, _ => []
  | .cons b rest, req =>
      .obj (convertRBucketPairs b req) :: convertRBucketsJson rest req

/-- One Range bucket object (aggregation.rs lines 590-613): optional
"from"/"to", then "key", "doc_count" and the merged sub-results. -/
def convertRBucketPairs : RBucketM → AggRequest → List (String × JsonVal)
  | .mk fromV toV key docCount subAgg, req =>
      let base :=
        (match fromV with | some q => [("from", JsonVal.num q)] | none => []) ++
        (match toV with | some q => [("to", JsonVal.num q)] | none => []) ++
        [("key", JsonVal.str key), ("doc_count", JsonVal.num (docCount : Rat))]
      if aggResultsIsEmpty subAgg then base
      else insertAll base (convertAggregationResultPairs subAgg req.subs)

end

/-- Claim C9 needs the member names of a projected object. -/
def pairNames (ps : List (String × JsonVal)) : List String :=
  ps.map Prod.fst

/-! ## Parsing aggregation requests (modules/aggregation.rs lines
180-327) and `run_aggregations` (lines 61-96)

`parse_aggregation_requests` works on the `serde_json::Value` obtained
from the input string; the serde parse step itself is external and is
passed in as an `Except String JsonVal` (its error message included).
Object member order models the `BTreeMap` iteration order. -/

/-- `Value::as_str`. -/
def jsonAsStr : JsonVal → Option String
  | .str s => some s
  | _ => none

/-- `Value::as_f64` (numbers are modelled as rationals). -/
def jsonAsF64 : JsonVal → Option Rat
  | .num q => some q
  | _ => none

/-- `Value::as_u64`: integral, non-negative, below `2^64`. -/
def jsonAsU64 : JsonVal → Option Nat
  | .num q => if q.den = 1 ∧ 0 ≤ q.num ∧ q.num < 2 ^ 64 then some q.num.toNat else none
  | _ => none

/-- `Value::as_bool`. -/
def jsonAsBool : JsonVal → Option Bool
  | .boolV b => some b
  | _ => none

/-- `Value::as_array`. -/
def jsonAsArr : JsonVal → Option (List JsonVal)
  | .arr items => some items
  | _ => none

/-- `Value::get(key)` on an object. -/
def jsonGet (j : JsonVal) (k : String) : Option JsonVal :=
  match j with
  | .obj pairs => lookupPairs pairs k
  | _ => none

/-- `parse_aggregation_options` (aggregation.rs lines 311-327); it can
never fail. -/
def parseAggregationOptions (config : JsonVal) : AggOptionsM :=
  ⟨(jsonGet config "min_doc_count").bind jsonAsU64,
   (jsonGet config "missing").bind jsonAsStr,
   (jsonGet config "keyed").bind jsonAsBool⟩

/-- The range-list parsing loop of `parse_aggregation_type`
(aggregation.rs lines 275-289). -/
def parseRangeSpecs : List JsonVal → Except String (List RangeSpecM)
  | [] => .ok []
  | r :: rest =>
      match r with
      | .obj ps =>
          let spec : RangeSpecM :=
            ⟨(lookupPairs ps "from").bind jsonAsF64,
             (lookupPairs ps "to").bind jsonAsF64,
             (lookupPairs ps "key").bind jsonAsStr⟩
          match parseRangeSpecs rest with
          | .ok specs => .ok (spec :: specs)
          | .error e => .error e
      | _ => .error "Each range must be an object"

/-- `parse_aggregation_type` (aggregation.rs lines 244-309): dispatch on
the kind string; an unknown kind is a hard error naming it. -/
def parseAggregationType (typeName : String) (config : JsonVal) :
    Except String AggTypeM :=
  match typeName with
  | "terms" => .ok (.terms ((jsonGet config "size").bind jsonAsU64))
  | "histogram" =>
      match (jsonGet config "interval").bind jsonAsF64 with
      | some q => .ok (.histogram q)
      | none => .error "Histogram requires interval"
  | "date_histogram" =>
      match (match jsonGet config "calendar_interval" with
             | some v => some v
             | none => jsonGet config "fixed_interval").bind jsonAsStr with
      | some s => .ok (.dateHistogram s)
      | none => .error "Date histogram requires interval"
  | "range" =>
      match jsonGet config "ranges" with
      | none => .error "Range aggregation requires ranges"
      | some rangesJson =>
          match jsonAsArr rangesJson with
          | none => .error "Ranges must be an array"
          | some arr =>
              match parseRangeSpecs arr with
              | .ok specs => .ok (.range specs)
              | .error e => .error e
  | "avg" => .ok .avg
  | "min" => .ok .min
  | "max" => .ok .max
  | "sum" => .ok .sum
  | "count" => .ok .count
  | "stats" => .ok .stats
  | "percentiles" =>
      let percents :=
        match (jsonGet config "percents").bind jsonAsArr with
        | some arr => arr.filterMap jsonAsF64
        | none => [1, 5, 25, 50, 75, 95, 99]
      .ok (.percentiles percents)
  | _ => .error ("Unknown aggregation type: " ++ typeName)

/-- `obj.get("aggs").or_else(|| obj.get("aggregations"))` (aggregation.rs
line 226). -/
def aggsEntry (pairs : List (String × JsonVal)) : Option JsonVal :=
  match lookupPairs pairs "aggs" with
  | some v => some v
  | none => lookupPairs pairs "aggregations"

/-- A member produced by `lookupPairs` is structurally smaller than the
member list. -/
theorem sizeOf_lookupPairs {ps : List (String × JsonVal)} {k : String}
    {v : JsonVal} (h : lookupPairs ps k = some v) : sizeOf v < sizeOf ps := by
  induction ps with
  | nil => exact absurd h (by simp [lookupPairs])
  | cons p rest ih =>
      obtain ⟨k', v'⟩ := p
      rw [lookupPairs] at h
      by_cases hk : k' = k
      · rw [if_pos hk] at h
        injection h with h
        subst h
        simp only [List.cons.sizeOf_spec, Prod.mk.sizeOf_spec]
        omega
      · rw [if_neg hk] at h
        have := ih h
        simp only [List.cons.sizeOf_spec]
        omega

/-- The `aggs`/`aggregations` member is structurally smaller than the
member list. -/
theorem sizeOf_aggsEntry {ps : List (String × JsonVal)} {v : JsonVal}
    (h : aggsEntry ps = some v) : sizeOf v < sizeOf ps := by
  rw [aggsEntry] at h
  cases ha : lookupPairs ps "aggs" with
  | some w => rw [ha] at h; injection h with h; subst h; exact sizeOf_lookupPairs ha
  | none => rw [ha] at h; exact sizeOf_lookupPairs h

mutual

/-- `parse_single_aggregation` (aggregation.rs lines 200-242): the first
member whose key is neither "aggs" nor "aggregations" names the kind;
"field" is required; sub-aggregations are parsed recursively from the
"aggs"/"aggregations" member when it is an object. -/
def parseSingleAggregation (name : String) (aggDef : JsonVal) :
    Except String AggRequest :=
  match aggDef with
  | .obj pairs =>
      match pairs.find? (fun p => !(p.1 == "aggs") && !(p.1 == "aggregations")) with
      | none => .error "No aggregation type found"
      | some (aggTypeName, aggConfig) =>
          match parseAggregationType aggTypeName aggConfig with
          | .error e => .error e
          | .ok aggType =>
              match (jsonGet aggConfig "field").bind jsonAsStr with
              | none => .error "Field is required for aggregations"
              | some field =>
                  let options := parseAggregationOptions aggConfig
                  match hsub : aggsEntry pairs with
                  | some (.obj subPairs) =>
                      match parseAggPairs subPairs with
                      | .error e => .error e
                      | .ok subs => .ok (.mk name aggType field subs options)
                  | some _ => .ok (.mk name aggType field .nil options)
                  | none => .ok (.mk name aggType field .nil options)
  | _ => .error "Aggregation definition must be an object"
termination_by sizeOf aggDef
decreasing_by
  simp only [JsonVal.obj.sizeOf_spec]
  have h1 := sizeOf_aggsEntry hsub
  simp only [JsonVal.obj.sizeOf_spec] at h1
  omega

/-- The member loop of `parse_aggregation_requests` /
`parse_single_aggregation`'s sub-aggregation parsing: parse each named
definition, propagating the first error. -/
def parseAggPairs : List (String × JsonVal) → Except String SubAggs
  | [] => .ok .nil
  | (n, d) :: rest =>
      match parseSingleAggregation n d with
      | .error e => .error e
      | .ok r =>
          match parseAggPairs rest with
          | .error e => .error e
          | .ok rs => .ok (.cons n r rs)
termination_by pairs => sizeOf pairs
decreasing_by
  · simp only [List.cons.sizeOf_spec, Prod.mk.sizeOf_spec]
    omega
  · simp only [List.cons.sizeOf_spec]
    omega

end

/-- `parse_aggregation_requests` (aggregation.rs lines 180-198) given
the serde parse outcome of the input string: the serde error is wrapped
as "Invalid JSON: ..", a non-object is rejected, and each top-level
member is parsed as one named request. -/
def parseAggregationRequests (jsonInput : Except String JsonVal) :
    Except String SubAggs :=
  match jsonInput with
  | .error e => .error ("Invalid JSON: " ++ e)
  | .ok j =>
      match j with
      | .obj pairs => parseAggPairs pairs
      | _ => .error "Aggregations must be a JSON object"

/-- `run_aggregations` (aggregation.rs lines 61-96): parse, build,
execute, project, serialize — and wrap every failure as a *successful*
NIF return whose string payload starts with "Error ".  The engine's
collector execution is passed in as `searchExec`.  (The
`serde_json::to_string` failure arm is unreachable under the total
serializer model.) -/
def runAggregations (schema : SchemaM) (jsonInput : Except String JsonVal)
    (searchExec : AggregationsM → Except String AggResultsM) :
    Except String String :=
  match parseAggregationRequests jsonInput with
  | .error e => .ok ("Error parsing aggregations: " ++ e)
  | .ok reqs =>
      match buildTantivyAggregations schema reqs with
      | .error e => .ok ("Error building aggregations: " ++ e)
      | .ok aggs =>
          match searchExec aggs with
          | .error e => .ok ("Error executing aggregations: " ++ e)
          | .ok aggResult =>
              .ok (jsonToString (.obj (convertAggregationResultPairs aggResult reqs)))

/-! # Theorems -/

/-- C1 (counterexample): the claim as stated is false.  On a tokenized
text field that tracks positions (`WithFreqsAndPositions`) and the
multi-word input "Quick Fox", `query_term` builds a Boolean
Must-conjunction (it never consults the record option) while
`writer_delete_term` builds a phrase query — the two strategies
diverge. -/
theorem claimC1_false : ¬ ClaimC1 := by
  intro h
  have h2 := h 0 ⟨some ⟨.withFreqsAndPositions⟩⟩ ⟨.withFreqsAndPositions⟩
    "Quick Fox" rfl (by decide)
  revert h2
  decide

/-- C1 (amended): for every tokenized text field and every multi-word
input, `query_term` always compiles a Boolean Must-conjunction of
per-word lower-cased terms, regardless of whether positions are tracked,
while `writer_delete_term` resolves to a phrase query when positions are
tracked and to a Boolean Must-conjunction otherwise; hence the two
strategies agree exactly when the field does not track positions. -/
theorem queryTerm_deleteTerm_strategies (field : Nat) (opts : TextOpts)
    (idx : TextIndexing) (s : String)
    (hidx : opts.indexing = some idx) (hlen : 1 < (splitWhitespace s).length) :
    (queryTermStr field opts s).strategy = .booleanMustQ ∧
    (writerDeleteTermStr field opts s).strategy =
      (if idx.recordOption.hasPositions then .phraseQ else .booleanMustQ) := by
  have hne : ¬ (splitWhitespace s).length = 1 := by omega
  constructor
  · simp only [queryTermStr, hidx]
    simp only [hlen, if_pos]
    simp [SQuery.strategy, List.all_map, Function.comp]
  · simp only [writerDeleteTermStr, hidx]
    simp only [hne, if_neg, if_false]
    cases hpos : idx.recordOption.hasPositions <;>
      simp [DeleteAction.strategy, SQuery.strategy, List.all_map, Function.comp]

/-- C1 (witness): the amended theorem applied at a concrete
positions-tracking field and the input "Quick Fox". -/
theorem queryTerm_deleteTerm_strategies_witness :
    (queryTermStr 0 ⟨some ⟨.withFreqsAndPositions⟩⟩ "Quick Fox").strategy =
      .booleanMustQ ∧
    (writerDeleteTermStr 0 ⟨some ⟨.withFreqsAndPositions⟩⟩ "Quick Fox").strategy =
      .phraseQ := by
  have h := queryTerm_deleteTerm_strategies 0 ⟨some ⟨.withFreqsAndPositions⟩⟩
    ⟨.withFreqsAndPositions⟩ "Quick Fox" rfl (by decide)
  simpa using h

/-- C6: on a tokenized text field with positions, `query_term` compiles
"Quick Fox" to exactly the Boolean query with clauses
(Must, Term "quick") and (Must, Term "fox"); a single-word input yields
a single lower-cased term query; and a non-tokenized text field uses the
exact input verbatim with no case folding. -/
theorem queryTermStr_spec (field : Nat) (opts : TextOpts) (idx : TextIndexing)
    (s : String) :
    (opts.indexing = some idx →
      queryTermStr field opts "Quick Fox" =
        .boolean [(.must, .term ⟨field, .text "quick"⟩ .basic),
                  (.must, .term ⟨field, .text "fox"⟩ .basic)]) ∧
    (opts.indexing = some idx → (splitWhitespace s).length ≤ 1 →
      queryTermStr field opts s = .term ⟨field, .text (lowercase s)⟩ .basic) ∧
    (opts.indexing = none → queryTermStr field opts s = .term ⟨field, .text s⟩ .basic) := by
  refine ⟨fun hidx => ?_, fun hidx hlen => ?_, fun hidx => ?_⟩
  · have hw : splitWhitespace "Quick Fox" = ["Quick", "Fox"] := by decide
    have h1 : lowercase "Quick" = "quick" := by decide
    have h2 : lowercase "Fox" = "fox" := by decide
    simp [queryTermStr, hidx, hw, h1, h2]
  · have hngt : ¬ (splitWhitespace s).length > 1 := by omega
    simp [queryTermStr, hidx, hngt]
  · simp [queryTermStr, hidx]

/-- C6 (witness): the theorem applied at a concrete positions-tracking
field, with the single-word part at "Hello" and the verbatim part at a
non-tokenized field. -/
theorem queryTermStr_spec_witness :
    queryTermStr 0 ⟨some ⟨.withFreqsAndPositions⟩⟩ "Quick Fox" =
      .boolean [(.must, .term ⟨0, .text "quick"⟩ .basic),
                (.must, .term ⟨0, .text "fox"⟩ .basic)] ∧
    queryTermStr 0 ⟨some ⟨.withFreqsAndPositions⟩⟩ "Hello" =
      .term ⟨0, .text "hello"⟩ .basic ∧
    queryTermStr 1 ⟨none⟩ "Quick Fox" = .term ⟨1, .text "Quick Fox"⟩ .basic := by
  refine ⟨(queryTermStr_spec 0 ⟨some ⟨.withFreqsAndPositions⟩⟩
      ⟨.withFreqsAndPositions⟩ "Hello").1 rfl,
    ?_, ?_⟩
  · have h := (queryTermStr_spec 0 ⟨some ⟨.withFreqsAndPositions⟩⟩
      ⟨.withFreqsAndPositions⟩ "Hello").2.1 rfl (by decide)
    simpa using h
  · have h := (queryTermStr_spec 1 ⟨none⟩ ⟨.basic⟩ "Quick Fox").2.2 rfl
    simpa using h

/-- C3 (counterexample): the claim as stated is false — the translation
does not escape regex metacharacters in the literal portion.  For the
pattern "a.c*" the code produces the regex "a.c.*" (the literal `.`
left raw, matching any character), not the escaped form the spec
describes. -/
theorem claimC3_false : ¬ ClaimC3 :=
  fun h => absurd (h.1 "a.c*") (by decide)

/-- C3 (amended): wildcard compilation replaces `*` with `.*` and `?`
with `.` but escapes nothing in the literal portion, and compiles the
result as a regex query; if regex compilation fails and the original
pattern is a pure prefix pattern `literal*` (no other `*`, no `?`), it
falls back to a term query on the literal with `WithFreqs`; any other
regex failure is an error. -/
theorem queryWildcard_behaviour (regexOk : String → Bool) (field : Nat)
    (p : String) :
    (regexOk (wildcardToRegex p) = true →
      queryWildcard regexOk field p = .ok (.regex field (wildcardToRegex p))) ∧
    (∀ lit : String, p = lit ++ "*" → strContains lit '*' = false →
      strContains lit '?' = false → regexOk (wildcardToRegex p) = false →
      queryWildcard regexOk field p = .ok (.term ⟨field, .text lit⟩ .withFreqs)) ∧
    (regexOk (wildcardToRegex p) = false → purePrefixPat p = false →
      queryWildcard regexOk field p = .error "Failed to create wildcard query") := by
  refine ⟨fun hok => by simp [queryWildcard, hok], fun lit hp hstar hq hfail => ?_,
    fun hfail hpp => by simp [queryWildcard, hfail, hpp]⟩
  subst hp
  have hdata : (lit ++ "*").data = lit.data ++ ['*'] := String.data_append ..
  have hdrop : dropLastChar (lit ++ "*") = lit := by
    simp [dropLastChar, hdata]
  have h1 : lastIsStar (lit ++ "*") = true := by
    simp [lastIsStar, hdata]
  have h2 : strContains (dropLastChar (lit ++ "*")) '*' = false := by
    rw [hdrop]; exact hstar
  have h3 : strContains (lit ++ "*") '?' = false := by
    simp only [strContains, List.contains, List.elem_eq_mem,
      decide_eq_false_iff_not] at hq ⊢
    simp only [hdata, List.mem_append]
    rintro (h | h)
    · exact hq h
    · simp at h
  have hpp : purePrefixPat (lit ++ "*") = true := by
    simp [purePrefixPat, h1, h2, h3]
  simp [queryWildcard, hfail, hpp, hdrop]

/-- C3 (witness): the amended theorem applied concretely — a succeeding
regex compilation of "a.c*" yields the regex query on the unescaped
"a.c.*", and a failing one on "abc*" falls back to the term query on
"abc". -/
theorem queryWildcard_behaviour_witness :
    queryWildcard (fun _ => true) 0 "a.c*" = .ok (.regex 0 "a.c.*") ∧
    queryWildcard (fun _ => false) 0 "abc*" =
      .ok (.term ⟨0, .text "abc"⟩ .withFreqs) := by
  constructor
  · have h := (queryWildcard_behaviour (fun _ => true) 0 "a.c*").1 rfl
    have hv : wildcardToRegex "a.c*" = "a.c.*" := by decide
    rwa [hv] at h
  · exact (queryWildcard_behaviour (fun _ => false) 0 "abc*").2.1 "abc" rfl
      (by decide) (by decide) rfl

/-- C2: on a schema where "category" is the facet field with id 1,
query.rs's `facet_term_query` resolves the field by name and targets
field 1, but facet.rs's `facet_term_query` and `facet_multi_query`
target the placeholder field id 0 regardless of the supplied name —
the code contradicts the claim (and its own comments flag the
placeholder as a hack). -/
theorem facet_term_query_placeholder_bug :
    getField schemaC2 "category" = some (1, .facet) ∧
    facetTermQueryQueryRs schemaC2 "category" "/a/b" =
      .ok (.term ⟨1, .facetPath "/a/b"⟩ .basic) ∧
    facetTermQueryFacetRs "category" "/a/b" =
      .ok (.term ⟨0, .facetPath "/a/b"⟩ .basic) ∧
    facetMultiQueryFacetRs "category" ["/a/b", "/a/c"] "must" =
      .ok (.multiterms [⟨0, .facetPath "/a/b"⟩, ⟨0, .facetPath "/a/c"⟩]) :=
  ⟨rfl, rfl, rfl, rfl⟩

/-- C4 (counterexample): the claim as stated is false.  For the negative
input -5 on a U64 field, the single-document add path reports no error
at all — it silently skips the field and hands the engine the remaining
(here empty) document. -/
theorem claimC4_false : ¬ ClaimC4 := by
  intro h
  obtain ⟨-, -, ⟨e, he⟩, -⟩ := h noCodecs (-5) (by norm_num)
  have hok : writerAddDocumentNif noCodecs schemaCount [("count", .int (-5))] =
      .ok [] := rfl
  rw [hok] at he
  exact Except.noConfusion he

/-- C4 (amended): a negative integer for a U64 field is never silently
wrapped to unsigned in any path; the batch-add coercion and deletion
resolution fail with the negative-for-unsigned error, while the single
add and schema-aware add paths silently skip the field (adding no value
and reporting no error). -/
theorem negative_u64_behaviour (codecs : Codecs) (field : Nat)
    (termField : String) (n : Int) (hneg : n < 0) (hrange : -(2 ^ 63) ≤ n) :
    addFieldToDocument codecs .u64 (.int n) =
      .error "Negative value not allowed for u64 field" ∧
    writerDeleteTermU64 field termField (.int n) =
      .error "Negative value not allowed for u64 field" ∧
    writerAddDocumentField codecs .u64 (.int n) = [] ∧
    writerAddDocumentWithSchemaField codecs .u64 (.int n) = [] := by
  have h1 : decodeU64 (.int n) = none := by
    simp only [decodeU64, ite_eq_right_iff]
    intro hc
    omega
  have h2 : decodeI64 (.int n) = some n := by
    simp only [decodeI64]
    rw [if_pos ⟨hrange, by omega⟩]
  have h3 : ¬ (0 ≤ n) := by omega
  refine ⟨?_, ?_, ?_, ?_⟩ <;>
    simp [addFieldToDocument, writerDeleteTermU64, writerAddDocumentField,
      writerAddDocumentWithSchemaField, h1, h2, h3]

/-- C4 (witness): the amended theorem applied at the input -5. -/
theorem negative_u64_behaviour_witness :
    addFieldToDocument noCodecs .u64 (.int (-5)) =
      .error "Negative value not allowed for u64 field" ∧
    writerDeleteTermU64 0 "count" (.int (-5)) =
      .error "Negative value not allowed for u64 field" ∧
    writerAddDocumentField noCodecs .u64 (.int (-5)) = [] ∧
    writerAddDocumentWithSchemaField noCodecs .u64 (.int (-5)) = [] :=
  negative_u64_behaviour noCodecs 0 "count" (-5) (by norm_num) (by norm_num)

/-- C5 (counterexample): the claim as stated is false.  On the schema
(tokenized text "title", U64 "count") and the document
("title" = "x", "count" = -5), the "count" coercion fails, the batch
path rejects the document — but the single-document path hands the
engine the partially-populated document containing only the title
field. -/
theorem claimC5_false : ¬ ClaimC5 := by
  intro h
  have hmem : (("count", DynValue.int (-5))) ∈
      [("title", DynValue.str "x"), ("count", DynValue.int (-5))] :=
    List.mem_cons_of_mem _ (List.mem_cons_self _ _)
  obtain ⟨-, ⟨e, he⟩⟩ := h noCodecs schemaTitleCount
    [("title", .str "x"), ("count", .int (-5))]
    ⟨("count", .int (-5)), hmem, 1, .u64, rfl,
      "Negative value not allowed for u64 field", rfl⟩
  have hok : writerAddDocumentNif noCodecs schemaTitleCount
      [("title", .str "x"), ("count", .int (-5))] = .ok [(0, .text "x")] := rfl
  rw [hok] at he
  exact Except.noConfusion he

/-- C5 (amended): in the batch path a document with any known field
whose value fails coercion is rejected whole — `add_document` is never
reached for it; the single-document path instead silently skips
unconvertible fields and hands the engine the remaining
partially-populated document. -/
theorem batch_rejects_failing_doc (codecs : Codecs) (schema : SchemaM)
    (doc : List (String × DynValue))
    (h : ∃ p ∈ doc, ∃ f ft, getField schema p.1 = some (f, ft) ∧
      ∃ e, addFieldToDocument codecs ft p.2 = .error e) :
    ∃ e, processBatchDoc codecs schema doc = .error e := by
  induction doc with
  | nil => obtain ⟨p, hp, -⟩ := h; exact absurd hp (List.not_mem_nil p)
  | cons head rest ih =>
      obtain ⟨name, v⟩ := head
      obtain ⟨p, hp, f, ft, hf, e, he⟩ := h
      rcases List.mem_cons.mp hp with heq | hrest
      · subst heq
        have hf' : getField schema name = some (f, ft) := hf
        have he' : addFieldToDocument codecs ft v = .error e := he
        exact ⟨"Field '" ++ name ++ "': " ++ e, by simp [processBatchDoc, hf', he']⟩
      · cases hg : getField schema name with
        | none =>
            obtain ⟨e'', he''⟩ := ih ⟨p, hrest, f, ft, hf, e, he⟩
            exact ⟨e'', by simp [processBatchDoc, hg, he'']⟩
        | some pr =>
            obtain ⟨f', ft'⟩ := pr
            obtain ⟨e'', he''⟩ := ih ⟨p, hrest, f, ft, hf, e, he⟩
            cases ha : addFieldToDocument codecs ft' v with
            | error e' =>
                exact ⟨"Field '" ++ name ++ "': " ++ e',
                  by simp [processBatchDoc, hg, ha]⟩
            | ok vs => exact ⟨e'', by simp [processBatchDoc, hg, ha, he'']⟩

/-- C5 (witness): the amended theorem applied to the concrete failing
document; the rejection carries the field-naming error of the negative
count value. -/
theorem batch_rejects_failing_doc_witness :
    ∃ e, processBatchDoc noCodecs schemaTitleCount
      [("title", .str "x"), ("count", .int (-5))] = .error e := by
  refine batch_rejects_failing_doc noCodecs schemaTitleCount _
    ⟨("count", .int (-5)),
      List.mem_cons_of_mem _ (List.mem_cons_self _ _), 1, .u64, rfl,
      "Negative value not allowed for u64 field", rfl⟩

/-- C7 (counterexample): the claim as stated is false.  Document-value
coercion for a Bool field (`add_field_to_document`) rejects the string
"true" with "Expected boolean value" — the lenient string set is only
honoured by deletion resolution. -/
theorem claimC7_false : ¬ ClaimC7 := by
  intro h
  have h1 := (h noCodecs true "true").2.1 (by decide)
  have h2 : addFieldToDocument noCodecs .boolF (.str "true") =
      .error "Expected boolean value" := rfl
  rw [h2] at h1
  exact Except.noConfusion h1

/-- C7 (amended): for a Bool field, document-value coercion
(`add_field_to_document`) accepts only a native boolean and fails on
every string (and every integer) with "Expected boolean value";
deletion resolution (`writer_delete_term`) additionally accepts the
case-insensitive lenient strings {true,t,1,yes,y} / {false,f,0,no,n}
and fails on any other string. -/
theorem bool_coercion_behaviour (codecs : Codecs) (field : Nat)
    (termField : String) (b : Bool) (s : String) (n : Int) :
    addFieldToDocument codecs .boolF (.boolV b) = .ok [.boolV b] ∧
    addFieldToDocument codecs .boolF (.str s) = .error "Expected boolean value" ∧
    addFieldToDocument codecs .boolF (.int n) = .error "Expected boolean value" ∧
    writerDeleteTermBool field termField (.boolV b) =
      .ok (.byTerm ⟨field, .boolV b⟩) ∧
    (lowercase s ∈ trueStrings →
      writerDeleteTermBool field termField (.str s) =
        .ok (.byTerm ⟨field, .boolV true⟩)) ∧
    (lowercase s ∉ trueStrings → lowercase s ∈ falseStrings →
      writerDeleteTermBool field termField (.str s) =
        .ok (.byTerm ⟨field, .boolV false⟩)) ∧
    (lowercase s ∉ trueStrings → lowercase s ∉ falseStrings →
      writerDeleteTermBool field termField (.str s) =
        .error ("Cannot parse '" ++ s ++ "' as boolean for field '" ++
          termField ++ "'")) := by
  refine ⟨rfl, rfl, rfl, rfl, fun ht => ?_, fun ht hf => ?_, fun ht hf => ?_⟩
  · simp [writerDeleteTermBool, decodeBool, decodeStr, ht]
  · simp [writerDeleteTermBool, decodeBool, decodeStr, ht, hf]
  · simp [writerDeleteTermBool, decodeBool, decodeStr, ht, hf]

/-- C7 (witness): the amended theorem applied at the inputs true, "YES",
"No", "maybe" and 1. -/
theorem bool_coercion_behaviour_witness :
    addFieldToDocument noCodecs .boolF (.boolV true) = .ok [.boolV true] ∧
    addFieldToDocument noCodecs .boolF (.str "YES") =
      .error "Expected boolean value" ∧
    writerDeleteTermBool 0 "flag" (.str "YES") =
      .ok (.byTerm ⟨0, .boolV true⟩) ∧
    writerDeleteTermBool 0 "flag" (.str "No") =
      .ok (.byTerm ⟨0, .boolV false⟩) ∧
    writerDeleteTermBool 0 "flag" (.str "maybe") =
      .error "Cannot parse 'maybe' as boolean for field 'flag'" ∧
    addFieldToDocument noCodecs .boolF (.int 1) =
      .error "Expected boolean value" := by
  refine ⟨(bool_coercion_behaviour noCodecs 0 "flag" true "YES" 1).1,
    (bool_coercion_behaviour noCodecs 0 "flag" true "YES" 1).2.1,
    (bool_coercion_behaviour noCodecs 0 "flag" true "YES" 1).2.2.2.2.1 (by decide),
    (bool_coercion_behaviour noCodecs 0 "flag" true "No" 1).2.2.2.2.2.1
      (by decide) (by decide),
    ?_,
    (bool_coercion_behaviour noCodecs 0 "flag" true "maybe" 1).2.2.1⟩
  have h := (bool_coercion_behaviour noCodecs 0 "flag" true "maybe" 1).2.2.2.2.2.2
    (by decide) (by decide)
  simpa using h

mutual

/-- Any error produced by `build_single_tantivy_aggregation` is the
field-not-found error of a field genuinely absent from the schema. -/
theorem buildSingle_error_shape (schema : SchemaM) :
    ∀ (r : AggRequest) (e : String),
    buildSingleTantivyAggregation schema r = .error e →
    ∃ f, e = "Field '" ++ f ++ "' not found in schema" ∧ getField schema f = none
  | .mk n t field subs o, e => by
      intro h
      rw [buildSingleTantivyAggregation] at h
      cases hg : getField schema field with
      | none =>
          rw [hg] at h
          refine ⟨field, ?_, hg⟩
          injection h with h
          exact h.symm
      | some pr =>
          rw [hg] at h
          cases hb : buildSubAggregations schema subs with
          | error e' =>
              rw [hb] at h
              injection h with h
              subst h
              exact buildSubs_error_shape schema subs _ hb
          | ok a => rw [hb] at h; exact Except.noConfusion h

/-- Any error produced by `build_sub_aggregations` is the
field-not-found error of a field genuinely absent from the schema. -/
theorem buildSubs_error_shape (schema : SchemaM) :
    ∀ (ss : SubAggs) (e : String),
    buildSubAggregations schema ss = .error e →
    ∃ f, e = "Field '" ++ f ++ "' not found in schema" ∧ getField schema f = none
  | .nil, e => by
      intro h
      rw [buildSubAggregations] at h
      exact Except.noConfusion h
  | .cons n r rest, e => by
      intro h
      rw [buildSubAggregations] at h
      cases hb : buildSingleTantivyAggregation schema r with
      | error e' =>
          rw [hb] at h
          injection h with h
          subst h
          exact buildSingle_error_shape schema r _ hb
      | ok a =>
          rw [hb] at h
          cases hr : buildSubAggregations schema rest with
          | error e' =>
              rw [hr] at h
              injection h with h
              subst h
              exact buildSubs_error_shape schema rest _ hr
          | ok rest' => rw [hr] at h; exact Except.noConfusion h

end

mutual

/-- A request tree mentioning a missing field never compiles. -/
theorem buildSingle_missing_errors (schema : SchemaM) :
    ∀ (r : AggRequest), reqHasMissingField schema r = true →
    ∃ e, buildSingleTantivyAggregation schema r = .error e
  | .mk n t field subs o => by
      intro h
      rw [buildSingleTantivyAggregation]
      cases hg : getField schema field with
      | none => exact ⟨_, rfl⟩
      | some pr =>
          rw [reqHasMissingField, hg] at h
          simp only [Option.isNone_some, Bool.false_or] at h
          obtain ⟨e, he⟩ := buildSubs_missing_errors schema subs h
          rw [he]
          exact ⟨e, rfl⟩

/-- A request map mentioning a missing field never compiles. -/
theorem buildSubs_missing_errors (schema : SchemaM) :
    ∀ (ss : SubAggs), subsHaveMissingField schema ss = true →
    ∃ e, buildSubAggregations schema ss = .error e
  | .nil => by
      intro h
      rw [subsHaveMissingField] at h
      exact Bool.noConfusion h
  | .cons n r rest => by
      intro h
      rw [buildSubAggregations]
      cases hb : buildSingleTantivyAggregation schema r with
      | error e => exact ⟨e, rfl⟩
      | ok a =>
          rw [subsHaveMissingField, Bool.or_eq_true] at h
          rcases h with hr | hrest
          · obtain ⟨e, he⟩ := buildSingle_missing_errors schema r hr
            rw [he] at hb
            exact Except.noConfusion hb
          · obtain ⟨e, he⟩ := buildSubs_missing_errors schema rest hrest
            rw [he]
            exact ⟨e, rfl⟩

end

/-- C8: compiling any aggregation-request tree that mentions a field
absent from the schema always fails with the error naming a genuinely
missing field; since compilation returns an error, no partially
compiled aggregation tree is retained or executed. -/
theorem aggregation_compile_missing_field (schema : SchemaM)
    (requests : SubAggs) (h : subsHaveMissingField schema requests = true) :
    ∃ f, buildTantivyAggregations schema requests =
      .error ("Field '" ++ f ++ "' not found in schema") ∧
      getField schema f = none := by
  obtain ⟨e, he⟩ := buildSubs_missing_errors schema requests h
  obtain ⟨f, hf, hnone⟩ := buildSubs_error_shape schema requests e he
  subst hf
  exact ⟨f, he, hnone⟩

/-- C8 (witness): a Terms aggregation on "category" with a nested Avg
sub-aggregation on "price", compiled against a schema that lacks
"price". -/
theorem aggregation_compile_missing_field_witness :
    ∃ f, buildTantivyAggregations [("category", .facet)]
      (.cons "by_cat" (.mk "by_cat" (.terms (some 5)) "category"
        (.cons "avg_price" (.mk "avg_price" .avg "price" .nil ⟨none, none, none⟩)
          .nil) ⟨none, none, none⟩) .nil) =
      .error ("Field '" ++ f ++ "' not found in schema") ∧
      getField [("category", .facet)] f = none :=
  aggregation_compile_missing_field _ _ rfl

/-- Inserting a member makes it retrievable. -/
theorem lookupPairs_mapInsert_self (m : List (String × JsonVal)) (k : String)
    (v : JsonVal) : lookupPairs (mapInsert m k v) k = some v := by
  induction m with
  | nil => simp [mapInsert, lookupPairs]
  | cons p rest ih =>
      obtain ⟨k', v'⟩ := p
      by_cases h : k' = k
      · subst h
        simp [mapInsert, lookupPairs]
      · simp [mapInsert, lookupPairs, h, ih]

/-- Inserting a member leaves other keys untouched. -/
theorem lookupPairs_mapInsert_other (m : List (String × JsonVal))
    (k k' : String) (v : JsonVal) (h : k' ≠ k) :
    lookupPairs (mapInsert m k v) k' = lookupPairs m k' := by
  induction m with
  | nil => simp [mapInsert, lookupPairs, Ne.symm h]
  | cons p rest ih =>
      obtain ⟨k'', v''⟩ := p
      by_cases hk : k'' = k
      · subst hk
        simp [mapInsert, lookupPairs, Ne.symm h]
      · simp only [mapInsert, if_neg hk, lookupPairs]
        by_cases hk' : k'' = k'
        · simp [hk']
        · simp [hk', ih]

/-- Keys not named by the inserted members keep their prior binding. -/
theorem lookupPairs_insertAll_notMem (m ps : List (String × JsonVal))
    (k : String) (h : k ∉ ps.map Prod.fst) :
    lookupPairs (insertAll m ps) k = lookupPairs m k := by
  induction ps generalizing m with
  | nil => rfl
  | cons p rest ih =>
      obtain ⟨k', v'⟩ := p
      simp only [List.map_cons, List.mem_cons] at h
      push_neg at h
      rw [insertAll, List.foldl_cons]
      rw [show List.foldl (fun acc p => mapInsert acc p.1 p.2) (mapInsert m k' v') rest =
        insertAll (mapInsert m k' v') rest from rfl]
      rw [ih (mapInsert m k' v') h.2]
      exact lookupPairs_mapInsert_other m k' k v' h.1

/-- With distinct inserted keys, every inserted member is retrievable
with its value. -/
theorem lookupPairs_insertAll_mem (m ps : List (String × JsonVal))
    (k : String) (v : JsonVal) (hnd : (ps.map Prod.fst).Nodup)
    (hmem : (k, v) ∈ ps) :
    lookupPairs (insertAll m ps) k = some v := by
  induction ps generalizing m with
  | nil => exact absurd hmem (List.not_mem_nil _)
  | cons p rest ih =>
      obtain ⟨k', v'⟩ := p
      simp only [List.map_cons, List.nodup_cons] at hnd
      rw [insertAll, List.foldl_cons]
      rw [show List.foldl (fun acc p => mapInsert acc p.1 p.2) (mapInsert m k' v') rest =
        insertAll (mapInsert m k' v') rest from rfl]
      rcases List.mem_cons.mp hmem with heq | hrest
      · injection heq with h1 h2
        subst h1
        subst h2
        rw [lookupPairs_insertAll_notMem _ _ _ hnd.1]
        exact lookupPairs_mapInsert_self m k v
      · exact ih (mapInsert m k' v') hnd.2 hrest

/-- Insertion never removes a key that was already present. -/
theorem lookupPairs_insertAll_isSome (m ps : List (String × JsonVal))
    (k : String) (h : (lookupPairs m k).isSome) :
    (lookupPairs (insertAll m ps) k).isSome := by
  induction ps generalizing m with
  | nil => exact h
  | cons p rest ih =>
      obtain ⟨k', v'⟩ := p
      rw [insertAll, List.foldl_cons]
      rw [show List.foldl (fun acc p => mapInsert acc p.1 p.2) (mapInsert m k' v') rest =
        insertAll (mapInsert m k' v') rest from rfl]
      refine ih (mapInsert m k' v') ?_
      by_cases hk : k = k'
      · subst hk
        rw [lookupPairs_mapInsert_self]
        rfl
      · rw [lookupPairs_mapInsert_other m k' k v' hk]
        exact h

/-- C9: a Terms aggregation result always projects to an object whose
"buckets" member is the (possibly empty) list of bucket objects; every
bucket object carries a "doc_count" member (with the bucket's document
count whenever no sub-aggregation reuses that name); each of the
bucket's sub-aggregation results whose name matches a sub-request is
merged into the same bucket object as a sibling member; and no generic
"sub_aggregations" member is ever introduced. -/
theorem terms_bucket_projection (req : AggRequest) (bs : TermsBucketsM)
    (so dc : Nat) (key : KeyM) (n : Nat) (sub : AggResultsM) :
    convertBucketResultToJson (.terms bs so dc) req =
      .obj [("doc_count_error_upper_bound", .num (dc : Rat)),
            ("sum_other_doc_count", .num (so : Rat)),
            ("buckets", .arr (convertTermsBucketsJson bs req))] ∧
    (lookupPairs (convertTermsBucketPairs (.mk key n sub) req)
      "doc_count").isSome = true ∧
    ("doc_count" ∉ pairNames (convertAggregationResultPairs sub req.subs) →
      lookupPairs (convertTermsBucketPairs (.mk key n sub) req) "doc_count" =
        some (.num (n : Rat))) ∧
    (∀ nm v, (pairNames (convertAggregationResultPairs sub req.subs)).Nodup →
      (nm, v) ∈ convertAggregationResultPairs sub req.subs →
      lookupPairs (convertTermsBucketPairs (.mk key n sub) req) nm = some v) ∧
    ("sub_aggregations" ∉ pairNames (convertAggregationResultPairs sub req.subs) →
      lookupPairs (convertTermsBucketPairs (.mk key n sub) req)
        "sub_aggregations" = none) := by
  have hbase : ∀ (k : KeyM) (m : Nat),
      lookupPairs [("key", keyToJson k), ("doc_count", JsonVal.num (m : Rat))]
        "doc_count" = some (.num (m : Rat)) := by
    intro k m
    simp [lookupPairs]
  refine ⟨rfl, ?_, ?_, ?_, ?_⟩
  · simp only [convertTermsBucketPairs]
    cases hemp : aggResultsIsEmpty sub with
    | true =>
        simp only [hemp, if_true]
        rw [hbase]
        rfl
    | false =>
        simp only [hemp, Bool.false_eq_true, if_false]
        apply lookupPairs_insertAll_isSome
        rw [hbase]
        rfl
  · intro hnm
    simp only [convertTermsBucketPairs]
    cases hemp : aggResultsIsEmpty sub with
    | true =>
        simp only [hemp, if_true]
        exact hbase key n
    | false =>
        simp only [hemp, Bool.false_eq_true, if_false]
        rw [lookupPairs_insertAll_notMem _ _ _ (by simpa [pairNames] using hnm)]
        exact hbase key n
  · intro nm v hnd hmem
    have hemp : aggResultsIsEmpty sub = false := by
      cases sub with
      | nil => rw [convertAggregationResultPairs] at hmem; exact absurd hmem (List.not_mem_nil _)
      | cons a b c => rfl
    simp only [convertTermsBucketPairs, hemp, Bool.false_eq_true, if_false]
    exact lookupPairs_insertAll_mem _ _ _ _ (by simpa [pairNames] using hnd) hmem
  · intro hnm
    simp only [convertTermsBucketPairs]
    cases hemp : aggResultsIsEmpty sub with
    | true =>
        simp only [hemp, if_true]
        simp [lookupPairs]
    | false =>
        simp only [hemp, Bool.false_eq_true, if_false]
        rw [lookupPairs_insertAll_notMem _ _ _ (by simpa [pairNames] using hnm)]
        simp [lookupPairs]

/-- C9 (witness): the spec's end-to-end example — a Terms request
"by_cat" on "category" with a nested Avg "avg_price" on "price", and a
result bucket (key "a", doc_count 3, avg 9) — projected; "avg_price"
appears as a sibling member of the bucket object, "doc_count" is
present, and no "sub_aggregations" member exists. -/
theorem terms_bucket_projection_witness :
    lookupPairs (convertTermsBucketPairs
      (.mk (.str "a") 3 (.cons "avg_price" (.metric (.average (some 9))) .nil))
      (.mk "by_cat" (.terms (some 5)) "category"
        (.cons "avg_price" (.mk "avg_price" .avg "price" .nil ⟨none, none, none⟩)
          .nil) ⟨none, none, none⟩)) "avg_price" =
      some (.obj [("value", .num 9)]) ∧
    lookupPairs (convertTermsBucketPairs
      (.mk (.str "a") 3 (.cons "avg_price" (.metric (.average (some 9))) .nil))
      (.mk "by_cat" (.terms (some 5)) "category"
        (.cons "avg_price" (.mk "avg_price" .avg "price" .nil ⟨none, none, none⟩)
          .nil) ⟨none, none, none⟩)) "doc_count" = some (.num 3) ∧
    lookupPairs (convertTermsBucketPairs
      (.mk (.str "a") 3 (.cons "avg_price" (.metric (.average (some 9))) .nil))
      (.mk "by_cat" (.terms (some 5)) "category"
        (.cons "avg_price" (.mk "avg_price" .avg "price" .nil ⟨none, none, none⟩)
          .nil) ⟨none, none, none⟩)) "sub_aggregations" = none := by
  have h := terms_bucket_projection
    (.mk "by_cat" (.terms (some 5)) "category"
      (.cons "avg_price" (.mk "avg_price" .avg "price" .nil ⟨none, none, none⟩)
        .nil) ⟨none, none, none⟩)
    .nil 0 0 (.str "a") 3
    (.cons "avg_price" (.metric (.average (some 9))) .nil)
  have hcomp : convertAggregationResultPairs
      (.cons "avg_price" (.metric (.average (some 9))) .nil)
      (AggRequest.subs (.mk "by_cat" (.terms (some 5)) "category"
        (.cons "avg_price" (.mk "avg_price" .avg "price" .nil ⟨none, none, none⟩)
          .nil) ⟨none, none, none⟩)) =
      [("avg_price", .obj [("value", .num 9)])] := rfl
  refine ⟨?_, ?_, ?_⟩
  · refine h.2.2.2.1 "avg_price" (.obj [("value", .num 9)]) ?_ ?_
    · rw [hcomp]; simp [pairNames]
    · rw [hcomp]; exact List.mem_singleton.mpr rfl
  · refine h.2.2.1 ?_
    rw [hcomp]
    simp [pairNames]
  · refine h.2.2.2.2 ?_
    rw [hcomp]
    simp [pairNames]

/-- C10: `run_aggregations` never returns an error-typed result — for
every schema, input and engine outcome it returns a normal successful
result; on malformed JSON, a parse failure (including an unknown
aggregation kind), a build failure (including an unknown field) and an
engine execution failure, the string payload carries the corresponding
message prefixed "Error ...", so failure is distinguishable from
success only by inspecting the returned string. -/
theorem runAggregations_packages_errors (schema : SchemaM)
    (jsonInput : Except String JsonVal)
    (searchExec : AggregationsM → Except String AggResultsM) :
    (∃ s, runAggregations schema jsonInput searchExec = .ok s) ∧
    (∀ e, jsonInput = .error e →
      runAggregations schema jsonInput searchExec =
        .ok ("Error parsing aggregations: Invalid JSON: " ++ e)) ∧
    (∀ e, parseAggregationRequests jsonInput = .error e →
      runAggregations schema jsonInput searchExec =
        .ok ("Error parsing aggregations: " ++ e)) ∧
    (∀ reqs e, parseAggregationRequests jsonInput = .ok reqs →
      buildTantivyAggregations schema reqs = .error e →
      runAggregations schema jsonInput searchExec =
        .ok ("Error building aggregations: " ++ e)) ∧
    (∀ reqs aggs e, parseAggregationRequests jsonInput = .ok reqs →
      buildTantivyAggregations schema reqs = .ok aggs →
      searchExec aggs = .error e →
      runAggregations schema jsonInput searchExec =
        .ok ("Error executing aggregations: " ++ e)) := by
  refine ⟨?_, ?_, ?_, ?_, ?_⟩
  · cases hp : parseAggregationRequests jsonInput with
    | error e =>
        refine ⟨"Error parsing aggregations: " ++ e, ?_⟩
        simp [runAggregations, hp]
    | ok reqs =>
        cases hb : buildTantivyAggregations schema reqs with
        | error e =>
            refine ⟨"Error building aggregations: " ++ e, ?_⟩
            simp [runAggregations, hp, hb]
        | ok aggs =>
            cases hs : searchExec aggs with
            | error e =>
                refine ⟨"Error executing aggregations: " ++ e, ?_⟩
                simp [runAggregations, hp, hb, hs]
            | ok res =>
                refine ⟨jsonToString (.obj (convertAggregationResultPairs res reqs)), ?_⟩
                simp [runAggregations, hp, hb, hs]
  · intro e he
    subst he
    have hlit : "Error parsing aggregations: " ++ "Invalid JSON: " =
        "Error parsing aggregations: Invalid JSON: " := rfl
    simp [runAggregations, parseAggregationRequests, ← String.append_assoc, hlit]
  · intro e hp
    simp [runAggregations, hp]
  · intro reqs e hp hb
    simp [runAggregations, hp, hb]
  · intro reqs aggs e hp hb hs
    simp [runAggregations, hp, hb, hs]

/-- C10 (witness): the theorem applied to the four concrete failure
scenarios — malformed JSON, an unknown aggregation kind, an unknown
field, and an engine execution failure. -/
theorem runAggregations_packages_errors_witness :
    runAggregations [("price", .f64)] (.error "expected value at line 1")
      (fun _ => .error "boom") =
      .ok "Error parsing aggregations: Invalid JSON: expected value at line 1" ∧
    runAggregations [("price", .f64)]
      (.ok (.obj [("a", .obj [("bogus", .obj [("field", .str "price")])])]))
      (fun _ => .error "boom") =
      .ok "Error parsing aggregations: Unknown aggregation type: bogus" ∧
    runAggregations [("price", .f64)]
      (.ok (.obj [("a", .obj [("avg", .obj [("field", .str "missing")])])]))
      (fun _ => .error "boom") =
      .ok "Error building aggregations: Field 'missing' not found in schema" ∧
    runAggregations [("price", .f64)]
      (.ok (.obj [("a", .obj [("avg", .obj [("field", .str "price")])])]))
      (fun _ => .error "boom") =
      .ok "Error executing aggregations: boom" := by
  have hparse1 : parseAggregationRequests
      (.ok (.obj [("a", .obj [("bogus", .obj [("field", .str "price")])])])) =
      (.error "Unknown aggregation type: bogus" : Except String SubAggs) := by
    simp [parseAggregationRequests, parseAggPairs, parseSingleAggregation,
      parseAggregationType, jsonGet, lookupPairs, jsonAsStr, List.find?, aggsEntry]
  have hparse2 : parseAggregationRequests
      (.ok (.obj [("a", .obj [("avg", .obj [("field", .str "missing")])])])) =
      .ok (.cons "a" (.mk "a" .avg "missing" .nil ⟨none, none, none⟩) .nil) := by
    simp [parseAggregationRequests, parseAggPairs, parseSingleAggregation,
      parseAggregationType, jsonGet, lookupPairs, jsonAsStr, List.find?, aggsEntry,
      parseAggregationOptions, jsonAsU64, jsonAsBool]
  have hparse3 : parseAggregationRequests
      (.ok (.obj [("a", .obj [("avg", .obj [("field", .str "price")])])])) =
      .ok (.cons "a" (.mk "a" .avg "price" .nil ⟨none, none, none⟩) .nil) := by
    simp [parseAggregationRequests, parseAggPairs, parseSingleAggregation,
      parseAggregationType, jsonGet, lookupPairs, jsonAsStr, List.find?, aggsEntry,
      parseAggregationOptions, jsonAsU64, jsonAsBool]
  refine ⟨?_, ?_, ?_, ?_⟩
  · exact (runAggregations_packages_errors [("price", .f64)]
      (.error "expected value at line 1") (fun _ => .error "boom")).2.1
      "expected value at line 1" rfl
  · exact (runAggregations_packages_errors [("price", .f64)] _
      (fun _ => .error "boom")).2.2.1 "Unknown aggregation type: bogus" hparse1
  · exact (runAggregations_packages_errors [("price", .f64)] _
      (fun _ => .error "boom")).2.2.2.1 _
      "Field 'missing' not found in schema" hparse2 rfl
  · exact (runAggregations_packages_errors [("price", .f64)] _
      (fun _ => .error "boom")).2.2.2.2 _
      (.cons "a" (.mk (.average ⟨"price"⟩) .nil) .nil) "boom" hparse3 rfl rfl

end TantivyEx
